import Mathlib

/-!
Verification development for the vsc-dex-contracts repository.

The development shallowly embeds three implementations found in the source:

* `V2` — the single-pair AMM pool contract (wasm contract): `Init`,
  `AddLiquidity`, `RemoveLiquidity`, `Swap`, `Donate`, `Burn`, `Transfer`.
  Machine integers (`uint64`/`int64`) are modelled as natural numbers below
  `2^64` (bit patterns), with `wrap`/`wsub` making every overflowing Go
  operation explicit.  Panics (`assert`) become `Except.error`; external
  asset movements (`HiveDraw`/`HiveTransfer`, which live outside this
  repository) are recorded as an effect list in source order.
* `DexRouter` — the multi-pool dex-router wasm contract: `CreatePool`,
  `findPool`, `executeDirectSwap`, `executeTwoHopSwap`, `executeSwap`,
  `executeAddLiquidity`.  This contract reports failures by returning an
  error string, so operations return `Option String × CState × List Eff`
  with the state as mutated up to the point of return.
* `RouterSvc` — the Go routing service (`router.Service`): `findPool`,
  `getPoolWithReserves`, `executeDirectSwap`, `calculateExpectedOutput`,
  `ExecuteSwap`.  Its `big.Int` arithmetic is exact, so it is embedded
  with plain natural-number/integer arithmetic; the floating-point
  `calculateMinOutput` is abstracted as a function parameter (it is only
  consulted after the pool checks that the claims below are about).
-/

/-- The modulus of 64-bit machine arithmetic. -/
def U64 : ℕ := 18446744073709551616

theorem U64_pos : 0 < U64 := by decide

/-- Go `uint64` arithmetic reduces results modulo `2^64`. -/
def wrap (n : ℕ) : ℕ := n % U64

/-- Wrapping subtraction of two 64-bit values (Go `a - b` on `uint64`). -/
def wsub (a b : ℕ) : ℕ := (a + U64 - b) % U64

/-- The `int64` value whose bit pattern is the 64-bit natural `n`
(Go cast `int64(n)`). -/
def toInt64 (n : ℕ) : ℤ :=
  if n < 9223372036854775808 then (n : ℤ) else (n : ℤ) - 18446744073709551616

/-- The `uint64` bit pattern of an integer (Go cast `uint64(v)` from a
signed integer). -/
def u64ofInt (v : ℤ) : ℕ := (v % (18446744073709551616 : ℤ)).toNat

theorem wrap_le (n : ℕ) : wrap n ≤ n := Nat.mod_le n U64

theorem wrap_lt (n : ℕ) : wrap n < U64 := Nat.mod_lt n U64_pos

theorem wrap_eq_of_lt {n : ℕ} (h : n < U64) : wrap n = n := Nat.mod_eq_of_lt h

theorem wsub_eq_sub {a b : ℕ} (hba : b ≤ a) (ha : a < U64) : wsub a b = a - b := by
  unfold wsub
  have h1 : a + U64 - b = (a - b) + U64 := by omega
  rw [h1, Nat.add_mod_right]
  exact Nat.mod_eq_of_lt (by omega)

theorem wsub_le {a b : ℕ} (hba : b ≤ a) (ha : a < U64) : wsub a b ≤ a := by
  rw [wsub_eq_sub hba ha]; omega

/-- Go `min64` from the contract utilities. -/
def min64 (a b : ℕ) : ℕ := if a < b then a else b

theorem min64_eq_min (a b : ℕ) : min64 a b = min a b := by
  unfold min64
  split <;> omega

/-! ### Association lists

LP claim balances are stored per address in the contract key-value store;
we model the balance table as an association list with first-match lookup. -/

def alistGet? {α : Type} : List (String × α) → String → Option α
  | [], _ => none
  | (k, v) :: t, key => if k = key then some v else alistGet? t key

def alistSet {α : Type} : List (String × α) → String → α → List (String × α)
  | [], key, v => [(key, v)]
  | (k, w) :: t, key, v =>
      if k = key then (key, v) :: t else (k, w) :: alistSet t key v

/-- Reading an LP balance (missing key reads as 0, as in `getLP`). -/
def getB (l : List (String × ℕ)) (k : String) : ℕ := (alistGet? l k).getD 0

/-- Writing an LP balance (as in `setLP`). -/
def setB (l : List (String × ℕ)) (k : String) (v : ℕ) : List (String × ℕ) :=
  alistSet l k v

/-- Sum of all stored balances. -/
def sumB (l : List (String × ℕ)) : ℕ := (l.map Prod.snd).sum

theorem sumB_setB (l : List (String × ℕ)) (k : String) (v : ℕ) :
    sumB (setB l k v) + getB l k = sumB l + v := by
  induction l with
  | nil => simp [sumB, setB, alistSet, getB, alistGet?]
  | cons hd t ih =>
    obtain ⟨k0, v0⟩ := hd
    by_cases hk : k0 = k
    · subst hk
      simp [sumB, setB, alistSet, getB, alistGet?]
      omega
    · simp only [sumB, setB, alistSet, getB, alistGet?, if_neg hk,
        List.map_cons, List.sum_cons]
      have := ih
      simp only [sumB, setB, getB] at this
      omega

theorem getB_le_sumB (l : List (String × ℕ)) (k : String) : getB l k ≤ sumB l := by
  induction l with
  | nil => simp [getB, alistGet?, sumB]
  | cons hd t ih =>
    obtain ⟨k0, v0⟩ := hd
    by_cases hk : k0 = k
    · subst hk; simp [getB, alistGet?, sumB]
    · simp only [getB, alistGet?, if_neg hk, sumB, List.map_cons, List.sum_cons]
      simp only [getB, sumB] at ih
      omega

theorem getB_setB_same (l : List (String × ℕ)) (k : String) (v : ℕ) :
    getB (setB l k v) k = v := by
  induction l with
  | nil => simp [getB, setB, alistSet, alistGet?]
  | cons hd t ih =>
    obtain ⟨k0, v0⟩ := hd
    by_cases hk : k0 = k
    · subst hk; simp [getB, setB, alistSet, alistGet?]
    · simpa [getB, setB, alistSet, alistGet?, hk] using ih

theorem getB_setB_ne (l : List (String × ℕ)) (k k' : String) (v : ℕ)
    (h : k ≠ k') : getB (setB l k v) k' = getB l k' := by
  induction l with
  | nil => simp [getB, setB, alistSet, alistGet?, h]
  | cons hd t ih =>
    obtain ⟨k0, v0⟩ := hd
    by_cases hk : k0 = k
    · subst hk; simp [getB, setB, alistSet, alistGet?, h]
    · by_cases hk' : k0 = k'
      · subst hk'; simp [getB, setB, alistSet, alistGet?, hk]
      · simpa [getB, setB, alistSet, alistGet?, hk, hk'] using ih

theorem getB_add_getB_le_sumB (l : List (String × ℕ)) (k k' : String)
    (h : k ≠ k') : getB l k + getB l k' ≤ sumB l := by
  induction l with
  | nil => simp [getB, alistGet?, sumB]
  | cons hd t ih =>
    obtain ⟨k0, v0⟩ := hd
    simp only [getB, alistGet?, sumB, List.map_cons, List.sum_cons]
    by_cases hk : k0 = k
    · rw [if_pos hk, if_neg (by rw [hk]; exact h)]
      have h1 := getB_le_sumB t k'
      simp only [getB, sumB] at h1
      simp only [Option.getD_some]
      omega
    · rw [if_neg hk]
      by_cases hk' : k0 = k'
      · rw [if_pos hk']
        have h1 := getB_le_sumB t k
        simp only [getB, sumB] at h1
        simp only [Option.getD_some]
        omega
      · rw [if_neg hk']
        have h1 := ih
        simp only [getB, sumB] at h1
        omega

/-! ### sqrt128

`sqrt128(hi, lo)` in the source binary-searches the largest `mid` in
`[0, 2^63 - 1]` whose exact 128-bit square (`bits.Mul64(mid, mid)`) does not
exceed the 128-bit value `hi:lo`.  We embed it over the combined natural
number `n = hi * 2^64 + lo`; the comparison in the source is exact. -/

def sqrtLoop : ℕ → ℕ → ℕ → ℕ → ℕ → ℕ
  | 0, _, _, _, ans => ans
  | fuel + 1, n, low, high, ans =>
      if low ≤ high then
        if ((low + high) / 2) * ((low + high) / 2) ≤ n then
          sqrtLoop fuel n ((low + high) / 2 + 1) high ((low + high) / 2)
        else
          sqrtLoop fuel n low ((low + high) / 2 - 1) ans
      else ans

/-- The contract `sqrt128` on the exact 128-bit product `n`.  The Go loop
runs until `low > high`; the interval halves every iteration, so starting
from `[0, 2^63 - 1]` it terminates within 64 iterations.  We run the same
body on a fuel of 64 (shown sufficient by `sqrtLoop_ge` below, which needs
only `high + 1 - low < 2^fuel`) to keep the function structurally
recursive and hence computable by the kernel. -/
def sqrt128 (n : ℕ) : ℕ := sqrtLoop 64 n 0 9223372036854775807 0

theorem sqrtLoop_le_sqrt (n : ℕ) : ∀ fuel low high ans, ans ≤ Nat.sqrt n →
    sqrtLoop fuel n low high ans ≤ Nat.sqrt n := by
  intro fuel
  induction fuel with
  | zero => intro low high ans h; exact h
  | succ fuel ih =>
    intro low high ans h
    unfold sqrtLoop
    split
    · split
      · rename_i hle
        exact ih _ _ _ (Nat.le_sqrt.mpr hle)
      · exact ih _ _ _ h
    · exact h

theorem sqrtLoop_le_max (n : ℕ) : ∀ fuel low high ans,
    sqrtLoop fuel n low high ans ≤ max ans high := by
  intro fuel
  induction fuel with
  | zero => intro low high ans; exact le_max_left _ _
  | succ fuel ih =>
    intro low high ans
    unfold sqrtLoop
    split
    · rename_i hlh
      have hmid1 : low ≤ (low + high) / 2 ∧ (low + high) / 2 ≤ high := by
        constructor
        · have h1 : low * 2 ≤ low + high := by omega
          exact (Nat.le_div_iff_mul_le (by omega)).mpr h1
        · have h2 : low + high ≤ high * 2 := by omega
          calc (low + high) / 2 ≤ high * 2 / 2 := Nat.div_le_div_right h2
            _ = high := by omega
      split
      · have := ih ((low + high) / 2 + 1) high ((low + high) / 2)
        omega
      · have := ih low ((low + high) / 2 - 1) ans
        omega
    · exact le_max_left _ _

theorem sqrtLoop_ge (n : ℕ) : ∀ fuel low high ans,
    high + 1 - low < 2 ^ fuel → low ≤ Nat.sqrt n + 1 →
    (∀ y, y < low → y ≤ high → y * y ≤ n → y ≤ ans) →
    min (Nat.sqrt n) high ≤ sqrtLoop fuel n low high ans := by
  intro fuel
  induction fuel with
  | zero =>
    intro low high ans hw hlow hans
    have hy : min (Nat.sqrt n) high ≤ high := min_le_right _ _
    have hy2 : min (Nat.sqrt n) high ≤ Nat.sqrt n := min_le_left _ _
    have hsq : min (Nat.sqrt n) high * min (Nat.sqrt n) high ≤ n :=
      le_trans (Nat.mul_le_mul hy2 hy2) (Nat.sqrt_le n)
    have := hans (min (Nat.sqrt n) high) (by simp at hw; omega) hy hsq
    exact this
  | succ fuel ih =>
    intro low high ans hw hlow hans
    unfold sqrtLoop
    split
    · rename_i hlh
      have hdiv1 : 2 * ((low + high) / 2) ≤ low + high := by
        have := Nat.div_mul_le_self (low + high) 2
        omega
      have hdiv2 : low + high ≤ 2 * ((low + high) / 2) + 1 := by
        have h1 := Nat.div_add_mod (low + high) 2
        have h2 : (low + high) % 2 < 2 := Nat.mod_lt _ (by omega)
        omega
      split
      · rename_i hle
        have hmids : (low + high) / 2 ≤ Nat.sqrt n := Nat.le_sqrt.mpr hle
        have hrec := ih ((low + high) / 2 + 1) high ((low + high) / 2)
          (by omega) (by omega) (fun y hy _ _ => by omega)
        omega
      · rename_i hgt
        have hmids : Nat.sqrt n < (low + high) / 2 := by
          rw [Nat.sqrt_lt]
          omega
        have hrec := ih low ((low + high) / 2 - 1) ans
          (by omega) hlow (fun y hy hyh hyn => hans y hy (by omega) hyn)
        omega
    · rename_i hlh
      have hy : min (Nat.sqrt n) high ≤ high := min_le_right _ _
      have hy2 : min (Nat.sqrt n) high ≤ Nat.sqrt n := min_le_left _ _
      have hsq : min (Nat.sqrt n) high * min (Nat.sqrt n) high ≤ n :=
        le_trans (Nat.mul_le_mul hy2 hy2) (Nat.sqrt_le n)
      have := hans (min (Nat.sqrt n) high) (by omega) hy hsq
      omega

/-- `sqrt128` computes the floor square root capped at `2^63 - 1`. -/
theorem sqrt128_eq (n : ℕ) :
    sqrt128 n = min (Nat.sqrt n) 9223372036854775807 := by
  unfold sqrt128
  apply le_antisymm
  · have h1 := sqrtLoop_le_sqrt n 64 0 9223372036854775807 0 (Nat.zero_le _)
    have h2 := sqrtLoop_le_max n 64 0 9223372036854775807 0
    omega
  · exact sqrtLoop_ge n 64 0 9223372036854775807 0 (by norm_num) (by omega)
      (fun y hy _ _ => by omega)

theorem sqrt128_eq_sqrt {n : ℕ} (h : Nat.sqrt n ≤ 9223372036854775807) :
    sqrt128 n = Nat.sqrt n := by
  rw [sqrt128_eq]
  omega

/-! ### Effects

Asset movements are delegated to the host SDK (`HiveDraw`, `HiveTransfer`),
which is outside this repository; we record them as effects in source order.
Amounts are the `int64` values passed to the host. -/

inductive Eff where
  | draw : ℤ → String → Eff
  | transfer : String → ℤ → String → Eff
deriving DecidableEq, Repr

/-- The LP amount minted by add-liquidity in both contracts: geometric mean
via the exact 128-bit product (`bits.Mul64` + `sqrt128`) on a first deposit,
otherwise the proportional formula with the source's wrapping 64-bit
products. -/
def mintAmount (amt0U amt1U totalLP r0 r1 : ℕ) : ℕ :=
  if totalLP = 0 then sqrt128 (amt0U * amt1U)
  else min64 (wrap (amt0U * totalLP) / r0) (wrap (amt1U * totalLP) / r1)

/-! ## V2: the single-pair AMM pool contract -/

namespace V2

/-- The contract key-value state: assets, fee parameters, LP supply,
reserves, fee buckets and per-address LP balances.  Reserves and fee
buckets are stored through `setInt`/`getInt` as `int64`; we keep their
64-bit patterns as naturals below `2^64` (the contract itself always
converts them back with `uint64(getInt(...))` for reserves). -/
structure PoolState where
  asset0 : String
  asset1 : String
  baseFeeBps : ℕ
  slipBaselineBps : ℕ
  slipShareBps : ℕ
  totalLP : ℕ
  reserve0 : ℕ
  reserve1 : ℕ
  fee0 : ℕ
  fee1 : ℕ
  lps : List (String × ℕ)
deriving DecidableEq, Repr

/-- `Init` at the parsed-payload level (caller supplies the base fee, with
the source default 8 when the payload omits it).  Slip-fee parameters
default to 0, everything else to zero/empty. -/
def Init (asset0 asset1 : String) (baseFeeBps : ℕ) : PoolState :=
  { asset0 := asset0, asset1 := asset1, baseFeeBps := baseFeeBps,
    slipBaselineBps := 0, slipShareBps := 0, totalLP := 0,
    reserve0 := 0, reserve1 := 0, fee0 := 0, fee1 := 0, lps := [] }

/-- `sdk.AssetHbd` comparison (the SDK constant is the asset name "hbd"). -/
def isHbd (a : String) : Bool := a = "hbd"

/-- `AddLiquidity` ("amt0,amt1" already parsed).  Draws happen first; the
proportional branch divides by the reserves, so a zero reserve there is a
Go division-by-zero panic, modelled as an error. -/
def AddLiquidity (sender : String) (amt0U amt1U : ℕ) (s : PoolState) :
    Except String (PoolState × List Eff) :=
  if s.totalLP ≠ 0 ∧ (s.reserve0 = 0 ∨ s.reserve1 = 0) then
    .error "integer divide by zero"
  else if mintAmount amt0U amt1U s.totalLP s.reserve0 s.reserve1 = 0 then
    .error "assertion failed"
  else
    .ok ({ s with
            lps := if s.totalLP = 0 then
                setB s.lps sender
                  (mintAmount amt0U amt1U s.totalLP s.reserve0 s.reserve1)
              else
                setB s.lps sender (wrap (getB s.lps sender
                  + mintAmount amt0U amt1U s.totalLP s.reserve0 s.reserve1)),
            totalLP := wrap (s.totalLP
              + mintAmount amt0U amt1U s.totalLP s.reserve0 s.reserve1),
            reserve0 := wrap (s.reserve0 + amt0U),
            reserve1 := wrap (s.reserve1 + amt1U) },
      (if 0 < amt0U then [Eff.draw (toInt64 amt0U) s.asset0] else [])
        ++ (if 0 < amt1U then [Eff.draw (toInt64 amt1U) s.asset1] else []))

/-- Proportional asset0 payout of `RemoveLiquidity`
(`r0 * lpToBurn / totalLP` with the 64-bit product wrap). -/
def rmOut0 (lp : ℕ) (s : PoolState) : ℕ := wrap (s.reserve0 * lp) / s.totalLP

/-- Proportional asset1 payout of `RemoveLiquidity`. -/
def rmOut1 (lp : ℕ) (s : PoolState) : ℕ := wrap (s.reserve1 * lp) / s.totalLP

/-- `RemoveLiquidity` ("lpAmount" already parsed).  Book-keeping happens
before the outgoing transfers, as in the source. -/
def RemoveLiquidity (sender : String) (lpToBurnU : ℕ) (s : PoolState) :
    Except String (PoolState × List Eff) :=
  if ¬(0 < lpToBurnU ∧ lpToBurnU ≤ getB s.lps sender ∧ 0 < s.totalLP) then
    .error "assertion failed"
  else
    .ok ({ s with lps := setB s.lps sender (getB s.lps sender - lpToBurnU),
                  totalLP := wsub s.totalLP lpToBurnU,
                  reserve0 := wsub s.reserve0 (rmOut0 lpToBurnU s),
                  reserve1 := wsub s.reserve1 (rmOut1 lpToBurnU s) },
      (if 0 < toInt64 (rmOut0 lpToBurnU s) then
        [Eff.transfer sender (toInt64 (rmOut0 lpToBurnU s)) s.asset0] else [])
      ++ (if 0 < toInt64 (rmOut1 lpToBurnU s) then
        [Eff.transfer sender (toInt64 (rmOut1 lpToBurnU s)) s.asset1] else []))

/-- Fee-adjusted input of `Swap` before the zero clamp. -/
def effIn0 (amountInU feeBps : ℕ) (applyFee : Bool) : ℕ :=
  if applyFee then wrap (amountInU * wsub 10000 feeBps) / 10000 else amountInU

/-- Fee-adjusted effective input of `Swap` (the `dxEff` computation of the
`0to1` branch, including the clamp of a zero effective input to 1). -/
def effIn (amountInU feeBps : ℕ) (applyFee : Bool) : ℕ :=
  if effIn0 amountInU feeBps applyFee = 0 then 1
  else effIn0 amountInU feeBps applyFee

/-- The slip-adjusted user output: reduces the gross constant-product output
`dy` by a share of the slippage in excess of the baseline, never below 1.
`rIn`/`rOut` are the input/output-side reserves, `dxEff` the effective
input. -/
def applySlip (baseline share rIn rOut dxEff dy : ℕ) : ℕ :=
  if 0 < share then
    let nominal := wrap (rOut * dxEff) / rIn
    if 0 < nominal then
      let slipBps := wrap (wsub nominal dy * 10000) / nominal
      if baseline < slipBps then
        let excess := wsub slipBps baseline
        let outExtra := wrap (wrap (dy * excess) * share) / 10000 / 10000
        let outExtra' := if dy ≤ outExtra then dy - 1 else outExtra
        dy - outExtra'
      else dy
    else dy
  else dy

/-- Does the base fee apply on a `0to1` swap (`isHbd(asset0) && feeBps > 0`)? -/
def feeApplies (s : PoolState) : Bool := isHbd s.asset0 && !(s.baseFeeBps == 0)

/-- `dxEff` of the `0to1` branch. -/
def dxEffV (aIn : ℕ) (s : PoolState) : ℕ := effIn aIn s.baseFeeBps (feeApplies s)

/-- `k := r0 * r1` (64-bit product, wraps). -/
def kV (s : PoolState) : ℕ := wrap (s.reserve0 * s.reserve1)

/-- `newX := r0 + dxEff` of the `0to1` branch. -/
def newXV (aIn : ℕ) (s : PoolState) : ℕ := wrap (s.reserve0 + dxEffV aIn s)

/-- `dy := r1 - k/newX` of the `0to1` branch. -/
def dyV (aIn : ℕ) (s : PoolState) : ℕ := wsub s.reserve1 (kV s / newXV aIn s)

/-- `dyUser` of the `0to1` branch (gross output after the slip fee). -/
def dyUserV (aIn : ℕ) (s : PoolState) : ℕ :=
  applySlip s.slipBaselineBps s.slipShareBps s.reserve0 s.reserve1
    (dxEffV aIn s) (dyV aIn s)

/-- Base fee amount of the `0to1` branch (`amountInU - dxEff`). -/
def baseFeeV (aIn : ℕ) (s : PoolState) : ℕ := wsub aIn (dxEffV aIn s)

/-- Referral payout of the `0to1` branch, taken out of the base fee. -/
def refOut0V (aIn ref : ℕ) (s : PoolState) : ℕ :=
  if 0 < ref then wrap (baseFeeV aIn s * ref) / 10000 else 0

/-- `newY := r1 + dxEff` of the `1to0` branch (no base fee on that side). -/
def newYV (aIn : ℕ) (s : PoolState) : ℕ := wrap (s.reserve1 + aIn)

/-- `dxOut := r0 - k/newY` of the `1to0` branch. -/
def dxOutV (aIn : ℕ) (s : PoolState) : ℕ := wsub s.reserve0 (kV s / newYV aIn s)

/-- `dxUserTotal` of the `1to0` branch (gross output after the slip fee). -/
def dxUserTotalV (aIn : ℕ) (s : PoolState) : ℕ :=
  applySlip s.slipBaselineBps s.slipShareBps s.reserve1 s.reserve0 aIn
    (dxOutV aIn s)

/-- Referral payout of the `1to0` branch, deducted from the user output and
clamped below the gross output. -/
def refOut1V (aIn ref : ℕ) (s : PoolState) : ℕ :=
  if 0 < ref then
    (if dxUserTotalV aIn s ≤ wrap (dxUserTotalV aIn s * ref) / 10000 then
      dxUserTotalV aIn s - 1
    else wrap (dxUserTotalV aIn s * ref) / 10000)
  else 0

/-- Net user output of the `1to0` branch. -/
def dxUserNetV (aIn ref : ℕ) (s : PoolState) : ℕ :=
  dxUserTotalV aIn s - refOut1V aIn ref s

/-- `Swap` at the parsed-payload level: `dir` is "0to1" or "1to0", `minOutU`
defaults to 0 and `refBpsU` to 0 when the corresponding payload parts are
absent (the 1..1000 bound on a supplied `refBps` is asserted during payload
parsing, before this logic runs). -/
def Swap (sender dir : String) (amountInU minOutU : ℕ)
    (beneficiary : String) (refBpsU : ℕ) (s : PoolState) :
    Except String (PoolState × List Eff) :=
  if amountInU = 0 then .error "assertion failed"
  else if ¬(0 < s.reserve0 ∧ 0 < s.reserve1) then .error "assertion failed"
  else if dir = "0to1" then
    if newXV amountInU s = 0 then .error "assertion failed"
    else if kV s = 0 then .error "assertion failed"
    else if ¬(0 < dyV amountInU s ∧ dyV amountInU s < s.reserve1) then
      .error "assertion failed"
    else if ¬(minOutU ≤ dyUserV amountInU s) then .error "assertion failed"
    else
      let s1 := { s with reserve0 := newXV amountInU s,
                         reserve1 := wsub s.reserve1 (dyUserV amountInU s) }
      let s2 := if isHbd s.asset0 ∧ 0 < baseFeeV amountInU s
          ∧ 0 < toInt64 (wsub (baseFeeV amountInU s) (refOut0V amountInU refBpsU s)) then
          { s1 with fee0 := wrap (s1.fee0
              + wsub (baseFeeV amountInU s) (refOut0V amountInU refBpsU s)) }
        else s1
      .ok (s2, [Eff.draw (toInt64 amountInU) s.asset0]
        ++ (if isHbd s.asset0 ∧ 0 < baseFeeV amountInU s
            ∧ 0 < refOut0V amountInU refBpsU s then
          [Eff.transfer beneficiary (toInt64 (refOut0V amountInU refBpsU s)) s.asset0]
        else [])
        ++ [Eff.transfer sender (toInt64 (dyUserV amountInU s)) s.asset1])
  else if dir = "1to0" then
    if newYV amountInU s = 0 then .error "assertion failed"
    else if kV s = 0 then .error "assertion failed"
    else if ¬(0 < dxOutV amountInU s ∧ dxOutV amountInU s < s.reserve0) then
      .error "assertion failed"
    else if ¬(minOutU ≤ dxUserNetV amountInU refBpsU s) then
      .error "assertion failed"
    else
      .ok ({ s with reserve1 := newYV amountInU s,
                    reserve0 := wsub s.reserve0 (dxUserTotalV amountInU s) },
        [Eff.draw (toInt64 amountInU) s.asset1]
        ++ (if 0 < refOut1V amountInU refBpsU s then
          [Eff.transfer beneficiary (toInt64 (refOut1V amountInU refBpsU s)) s.asset0]
        else [])
        ++ [Eff.transfer sender (toInt64 (dxUserNetV amountInU refBpsU s)) s.asset0])
  else .error "assertion failed"

/-- `Donate` ("amt0,amt1" already parsed); never fails. -/
def Donate (amt0U amt1U : ℕ) (s : PoolState) : PoolState × List Eff :=
  let p1 := if 0 < amt0U then
      ({ s with reserve0 := wrap (s.reserve0 + amt0U) },
        [Eff.draw (toInt64 amt0U) s.asset0])
    else (s, [])
  if 0 < amt1U then
    ({ p1.1 with reserve1 := wrap (p1.1.reserve1 + amt1U) },
      p1.2 ++ [Eff.draw (toInt64 amt1U) p1.1.asset1])
  else p1

/-- `Burn` destroys LP balance and total supply, leaving reserves alone. -/
def Burn (sender : String) (amt : ℕ) (s : PoolState) :
    Except String (PoolState × List Eff) :=
  if ¬(0 < amt ∧ amt ≤ getB s.lps sender) then .error "assertion failed"
  else .ok ({ s with lps := setB s.lps sender (getB s.lps sender - amt),
                     totalLP := wsub s.totalLP amt }, [])

/-- The balance-table update of `Transfer`: debit the sender, then credit
the recipient reading the already-debited table (so a self-transfer is a
no-op), with the `uint64` wrap on the credited balance. -/
def transferLps (sender toAddr : String) (amt : ℕ)
    (l : List (String × ℕ)) : List (String × ℕ) :=
  setB (setB l sender (getB l sender - amt)) toAddr
    (wrap (getB (setB l sender (getB l sender - amt)) toAddr + amt))

/-- `Transfer` moves LP balance between addresses without touching
reserves. -/
def Transfer (sender toAddr : String) (amt : ℕ) (s : PoolState) :
    Except String (PoolState × List Eff) :=
  if ¬(0 < amt ∧ amt ≤ getB s.lps sender) then .error "assertion failed"
  else .ok ({ s with lps := transferLps sender toAddr amt s.lps }, [])

/-- Sum of all per-address LP balances of the pool. -/
def sumLP (s : PoolState) : ℕ := sumB s.lps

/-- One successful pool operation (the six operations named by the spec's
claim-balance invariant). -/
inductive Step : PoolState → PoolState → Prop
  | add (sender : String) (a0 a1 : ℕ) (s s' : PoolState) (e : List Eff) :
      AddLiquidity sender a0 a1 s = .ok (s', e) → Step s s'
  | remove (sender : String) (lp : ℕ) (s s' : PoolState) (e : List Eff) :
      RemoveLiquidity sender lp s = .ok (s', e) → Step s s'
  | swap (sender dir : String) (aIn minOut : ℕ) (ben : String) (ref : ℕ)
      (s s' : PoolState) (e : List Eff) :
      Swap sender dir aIn minOut ben ref s = .ok (s', e) → Step s s'
  | donate (a0 a1 : ℕ) (s : PoolState) : Step s (Donate a0 a1 s).1
  | burn (sender : String) (amt : ℕ) (s s' : PoolState) (e : List Eff) :
      Burn sender amt s = .ok (s', e) → Step s s'
  | transferLP (sender toAddr : String) (amt : ℕ) (s s' : PoolState) (e : List Eff) :
      Transfer sender toAddr amt s = .ok (s', e) → Step s s'

/-- States reachable from a freshly initialized pool. -/
def Reachable (init s : PoolState) : Prop := Relation.ReflTransGen Step init s

end V2

/-! ## DexRouter: the multi-pool dex-router contract -/

namespace DexRouter

/-- One pool record of the dex-router contract (all numeric fields are
stored through `setUint`, i.e. as `uint64`). -/
structure Pool where
  asset0 : String
  asset1 : String
  reserve0 : ℕ
  reserve1 : ℕ
  fee : ℕ
  totalLp : ℕ
  fee0 : ℕ
  fee1 : ℕ
  lps : List (String × ℕ)
deriving DecidableEq, Repr

/-- The contract state: version, the next pool id counter and the pool
records keyed by their decimal pool id. -/
structure CState where
  version : String
  nextPoolId : ℕ
  pools : List (String × Pool)
deriving DecidableEq, Repr

/-- The external JSON instruction schema (`DexInstruction`); optional
numeric fields are pointers in the source.  There is no amount-in field.
(The free-form `metadata` map is only consumed by the deposit/withdrawal
handlers, which are embedded directly at the parsed-amount level.) -/
structure DexInstruction where
  type : String
  version : String
  assetIn : String
  assetOut : String
  recipient : String
  slippageBps : Option ℤ := none
  minAmountOut : Option ℤ := none
  beneficiary : Option String := none
  refBps : Option ℤ := none
deriving DecidableEq, Repr

def Init (version : String) : CState :=
  { version := version, nextPoolId := 1, pools := [] }

def getPoolAsset0 (st : CState) (pid : String) : String :=
  match alistGet? st.pools pid with
  | some p => p.asset0
  | none => ""

def getPoolAsset1 (st : CState) (pid : String) : String :=
  match alistGet? st.pools pid with
  | some p => p.asset1
  | none => ""

def getPoolReserve0 (st : CState) (pid : String) : ℕ :=
  match alistGet? st.pools pid with
  | some p => p.reserve0
  | none => 0

def getPoolReserve1 (st : CState) (pid : String) : ℕ :=
  match alistGet? st.pools pid with
  | some p => p.reserve1
  | none => 0

def getPoolFee (st : CState) (pid : String) : ℕ :=
  match alistGet? st.pools pid with
  | some p => p.fee
  | none => 0

def getPoolTotalLp (st : CState) (pid : String) : ℕ :=
  match alistGet? st.pools pid with
  | some p => p.totalLp
  | none => 0

def getPoolLp (st : CState) (pid addr : String) : ℕ :=
  match alistGet? st.pools pid with
  | some p => getB p.lps addr
  | none => 0

/-- Update a pool record in place (the embedded operations only write to
pools they have already found). -/
def updateP (st : CState) (pid : String) (f : Pool → Pool) : CState :=
  match alistGet? st.pools pid with
  | some p => { st with pools := alistSet st.pools pid (f p) }
  | none => st

def setPoolReserve0 (st : CState) (pid : String) (v : ℕ) : CState :=
  updateP st pid (fun p => { p with reserve0 := v })

def setPoolReserve1 (st : CState) (pid : String) (v : ℕ) : CState :=
  updateP st pid (fun p => { p with reserve1 := v })

def setPoolTotalLp (st : CState) (pid : String) (v : ℕ) : CState :=
  updateP st pid (fun p => { p with totalLp := v })

def setPoolLp (st : CState) (pid addr : String) (v : ℕ) : CState :=
  updateP st pid (fun p => { p with lps := setB p.lps addr v })

/-- Accrue `fee` into the pool's fee bucket for asset0 (`side0 = true`,
key `fee0`) or asset1 (`fee1`), with the `setUint(getUint + fee)` wrap. -/
def accrueFee (st : CState) (pid : String) (side0 : Bool) (fee : ℕ) : CState :=
  updateP st pid (fun p =>
    if side0 then { p with fee0 := wrap (p.fee0 + fee) }
    else { p with fee1 := wrap (p.fee1 + fee) })

/-- `CreatePool` at the parsed-JSON level. -/
def CreatePool (st : CState) (asset0 asset1 : String) (feeBps : ℕ) :
    Option String × CState :=
  if asset0 = asset1 then (some "assets must be different", st)
  else
    let fee := if feeBps = 0 then 8 else feeBps
    let pid := toString st.nextPoolId
    (none, { st with nextPoolId := wrap (st.nextPoolId + 1),
                     pools := alistSet st.pools pid
                       { asset0 := asset0, asset1 := asset1, reserve0 := 0,
                         reserve1 := 0, fee := fee, totalLp := 0, fee0 := 0,
                         fee1 := 0, lps := [] } })

/-- The pool-scan of `findPool`: iterate ids `1 .. nextPoolId-1`, skip
missing records, match the unordered asset pair. -/
def findPoolAux (st : CState) (assetA assetB : String) : List ℕ → String
  | [] => ""
  | i :: rest =>
      let pid := toString i
      let a0 := getPoolAsset0 st pid
      if a0 = "" then findPoolAux st assetA assetB rest
      else if (a0 = assetA ∧ getPoolAsset1 st pid = assetB)
          ∨ (a0 = assetB ∧ getPoolAsset1 st pid = assetA) then pid
      else findPoolAux st assetA assetB rest

def findPool (st : CState) (assetA assetB : String) : String :=
  findPoolAux st assetA assetB (List.range' 1 (st.nextPoolId - 1))

/-- Tail of `executeDirectSwap` from the referral handling onwards:
optional referral deduction, transfer to the recipient, and HBD fee
accrual. -/
def finishDirect (st1 : CState) (poolId : String) (inst : DexInstruction)
    (amountInU amountOut : ℕ) (inputAsset outputAsset : String)
    (feeBps : ℕ) (feeSide0 : Bool) (effs : List Eff) :
    Option String × CState × List Eff :=
  let effs2 := effs ++ [Eff.transfer inst.recipient (toInt64 amountOut) outputAsset]
  if inputAsset = "HBD" then
    let fee := wsub amountInU (wrap (amountInU * wsub 10000 feeBps) / 10000)
    if 0 < fee then (none, accrueFee st1 poolId feeSide0 fee, effs2)
    else (none, st1, effs2)
  else (none, st1, effs2)

/-- Middle of `executeDirectSwap` after the per-direction reserve writes:
the slippage-ratio check (note: performed after the reserve writes, and
against a bound derived from the computed output itself), the input draw
and the referral split. -/
def directSwapTail (st1 : CState) (poolId : String) (inst : DexInstruction)
    (amountInU amountOut : ℕ) (inputAsset outputAsset : String)
    (feeBps : ℕ) (feeSide0 : Bool) : Option String × CState × List Eff :=
  let slipFail : Bool := match inst.slippageBps with
    | some sb => decide (amountOut < wrap (amountOut * wsub 10000 (u64ofInt sb)) / 10000)
    | none => false
  if slipFail then (some "slippage tolerance exceeded", st1, [])
  else
    let e0 := [Eff.draw (toInt64 amountInU) inputAsset]
    match inst.beneficiary, inst.refBps with
    | some ben, some rb =>
        let refOut0 := wrap (amountOut * u64ofInt rb) / 10000
        if 0 < refOut0 then
          let refOut := if amountOut ≤ refOut0 then amountOut - 1 else refOut0
          finishDirect st1 poolId inst amountInU (amountOut - refOut)
            inputAsset outputAsset feeBps feeSide0
            (e0 ++ [Eff.transfer ben (toInt64 refOut) outputAsset])
        else finishDirect st1 poolId inst amountInU amountOut
          inputAsset outputAsset feeBps feeSide0 e0
    | _, _ => finishDirect st1 poolId inst amountInU amountOut
        inputAsset outputAsset feeBps feeSide0 e0

/-- `executeDirectSwap` of the dex-router contract.  The reserve writes of
both directions happen before `directSwapTail`'s slippage check; the
caller-supplied `min_amount_out` is consumed as the input amount. -/
def executeDirectSwap (st : CState) (poolId : String)
    (inst : DexInstruction) : Option String × CState × List Eff :=
  let asset0 := getPoolAsset0 st poolId
  let asset1 := getPoolAsset1 st poolId
  if asset0 = "" then (some "pool not found", st, [])
  else
    let r0 := getPoolReserve0 st poolId
    let r1 := getPoolReserve1 st poolId
    let feeBps := getPoolFee st poolId
    if r0 = 0 ∨ r1 = 0 then (some "pool has zero reserves", st, [])
    else
      match inst.minAmountOut with
      | none => (some "amount_in required for swap", st, [])
      | some v =>
        let amountInU := u64ofInt v
        if asset0 = inst.assetIn ∧ asset1 = inst.assetOut then
          let dx0 := wrap (amountInU * wsub 10000 feeBps) / 10000
          let dx := if dx0 = 0 then 1 else dx0
          let k := wrap (r0 * r1)
          let newR0 := wrap (r0 + dx)
          if newR0 = 0 then (some "integer divide by zero", st, [])
          else
            let amountOut := wsub r1 (k / newR0)
            let st1 := setPoolReserve1 (setPoolReserve0 st poolId newR0)
              poolId (wsub r1 amountOut)
            directSwapTail st1 poolId inst amountInU amountOut asset0 asset1
              feeBps true
        else if asset1 = inst.assetIn ∧ asset0 = inst.assetOut then
          let dy := amountInU
          let k := wrap (r0 * r1)
          let newR1 := wrap (r1 + dy)
          if newR1 = 0 then (some "integer divide by zero", st, [])
          else
            let amountOut := wsub r0 (k / newR1)
            let st1 := setPoolReserve0 (setPoolReserve1 st poolId newR1)
              poolId (wsub r0 amountOut)
            directSwapTail st1 poolId inst amountInU amountOut asset1 asset0
              feeBps false
        else (some "invalid asset pair for pool", st, [])

/-- One hop of `executeTwoHopSwap`, with the reserves `r0`/`r1` as read by
the caller before any hop executed (the source reads all reserves up
front).  Returns `none` on the Go division-by-zero panic. -/
def hopCompute (st : CState) (pid : String) (r0 r1 amountIn fee : ℕ)
    (inIsAsset0 : Bool) : Option (CState × ℕ) :=
  let dEff0 := wrap (amountIn * wsub 10000 fee) / 10000
  let dEff := if dEff0 = 0 then 1 else dEff0
  let k := wrap (r0 * r1)
  if inIsAsset0 then
    let newR0 := wrap (r0 + dEff)
    if newR0 = 0 then none
    else
      let outAmt := wsub r1 (k / newR0)
      some (setPoolReserve1 (setPoolReserve0 st pid newR0) pid (wsub r1 outAmt),
        outAmt)
  else
    let newR1 := wrap (r1 + dEff)
    if newR1 = 0 then none
    else
      let outAmt := wsub r0 (k / newR1)
      some (setPoolReserve0 (setPoolReserve1 st pid newR1) pid (wsub r0 outAmt),
        outAmt)

/-- `executeTwoHopSwap` of the dex-router contract: route via the HBD
bridge pools, mutating both pools before the slippage-ratio check; the
input amount again comes from `min_amount_out`. -/
def executeTwoHopSwap (st : CState) (inst : DexInstruction) :
    Option String × CState × List Eff :=
  let pool1Id := findPool st inst.assetIn "HBD"
  if pool1Id = "" then (some "no pool found for first hop", st, [])
  else
    let pool2Id := findPool st "HBD" inst.assetOut
    if pool2Id = "" then (some "no pool found for second hop", st, [])
    else
      let asset1_0 := getPoolAsset0 st pool1Id
      let r1_0 := getPoolReserve0 st pool1Id
      let r1_1 := getPoolReserve1 st pool1Id
      let fee1 := getPoolFee st pool1Id
      let r2_0 := getPoolReserve0 st pool2Id
      let r2_1 := getPoolReserve1 st pool2Id
      let fee2 := getPoolFee st pool2Id
      match inst.minAmountOut with
      | none => (some "amount_in required for two-hop swap", st, [])
      | some v =>
        let amountIn := u64ofInt v
        match hopCompute st pool1Id r1_0 r1_1 amountIn fee1
          (asset1_0 = inst.assetIn) with
        | none => (some "integer divide by zero", st, [])
        | some (st1, amountIntermediate) =>
          match hopCompute st1 pool2Id r2_0 r2_1 amountIntermediate fee2
            (getPoolAsset0 st1 pool2Id = "HBD") with
          | none => (some "integer divide by zero", st1, [])
          | some (st2, amountOut) =>
            let slipFail : Bool := match inst.slippageBps with
              | some sb =>
                  decide (amountOut < wrap (amountOut * wsub 10000 (u64ofInt sb)) / 10000)
              | none => false
            if slipFail then (some "slippage tolerance exceeded", st2, [])
            else
              let effs := [Eff.draw (toInt64 amountIn) inst.assetIn,
                Eff.transfer inst.recipient (toInt64 amountOut) inst.assetOut]
              if inst.assetIn = "HBD" then
                let fee := wsub amountIn (wrap (amountIn * wsub 10000 fee1) / 10000)
                if 0 < fee then
                  (none, accrueFee st2 pool1Id (asset1_0 = "HBD") fee, effs)
                else (none, st2, effs)
              else (none, st2, effs)

/-- `executeSwap`: direct pool first, then the HBD two-hop when neither
asset is HBD. -/
def executeSwap (st : CState) (inst : DexInstruction) :
    Option String × CState × List Eff :=
  let directPoolId := findPool st inst.assetIn inst.assetOut
  if directPoolId ≠ "" then executeDirectSwap st directPoolId inst
  else if inst.assetIn ≠ "HBD" ∧ inst.assetOut ≠ "HBD" then
    executeTwoHopSwap st inst
  else (some "no suitable pool found", st, [])

/-- `executeAddLiquidity` of the dex-router contract (amounts already
extracted from the instruction metadata). -/
def executeAddLiquidity (st : CState) (poolId : String)
    (amt0U amt1U : ℕ) (provider : String) : Option String × CState × List Eff :=
  let asset0 := getPoolAsset0 st poolId
  let asset1 := getPoolAsset1 st poolId
  let effs := (if 0 < amt0U then [Eff.draw (toInt64 amt0U) asset0] else [])
    ++ (if 0 < amt1U then [Eff.draw (toInt64 amt1U) asset1] else [])
  let r0 := getPoolReserve0 st poolId
  let r1 := getPoolReserve1 st poolId
  let totalLP := getPoolTotalLp st poolId
  if totalLP ≠ 0 ∧ (r0 = 0 ∨ r1 = 0) then
    (some "integer divide by zero", st, effs)
  else
    let minted := mintAmount amt0U amt1U totalLP r0 r1
    if minted = 0 then (some "assertion failed", st, effs)
    else
      let st1 := setPoolReserve1 (setPoolReserve0 st poolId (wrap (r0 + amt0U)))
        poolId (wrap (r1 + amt1U))
      let st2 := setPoolTotalLp st1 poolId (wrap (totalLP + minted))
      let st3 := setPoolLp st2 poolId provider
        (wrap (getPoolLp st2 poolId provider + minted))
      (none, st3, effs)

end DexRouter

/-! ## RouterSvc: the Go routing service -/

namespace RouterSvc

structure PoolInfo where
  contractId : String
  asset0 : String
  asset1 : String
deriving DecidableEq, Repr

structure PoolInfoWithReserves where
  contractId : String
  asset0 : String
  asset1 : String
  reserve0 : ℕ
  reserve1 : ℕ
  fee : ℕ
deriving DecidableEq, Repr

/-- The `PoolQuerier` collaborator (an interface in the source; behaviour
is environment-supplied, errors are arbitrary strings). -/
structure Querier where
  getPoolsByAsset : String → Except String (List PoolInfoWithReserves)
  getPoolByID : String → Except String PoolInfoWithReserves

/-- The service environment: an optional pool querier (`nil` falls back to
the hardcoded test pools). -/
structure Env where
  poolQuerier : Option Querier

structure SwapParams where
  sender : String
  amountIn : ℤ
  assetIn : String
  assetOut : String
  minAmountOut : ℤ
  maxSlippage : ℕ
  beneficiary : String
  refBps : ℕ
deriving DecidableEq, Repr

structure SwapResult where
  success : Bool := false
  amountOut : ℤ := 0
  hbdAmount : ℤ := 0
  fee0 : ℤ := 0
  fee1 : ℤ := 0
  route : List String := []
  errorMessage : String := ""
deriving DecidableEq, Repr

/-- A failure result: only the error message is set (Go zero values
elsewhere, in particular an empty route). -/
def fail (msg : String) : SwapResult := { errorMessage := msg }

/-- The first matching pool in the querier's list (the loop body of
`findPool`). -/
def findPoolScan : List PoolInfoWithReserves → String → String → Option PoolInfo
  | [], _, _ => none
  | p :: rest, a, b =>
      if (p.asset0 = a ∧ p.asset1 = b) ∨ (p.asset0 = b ∧ p.asset1 = a) then
        some { contractId := p.contractId, asset0 := p.asset0, asset1 := p.asset1 }
      else findPoolScan rest a b

/-- The hardcoded fallback pools of `findPool`. -/
def fallbackPool (a b : String) : Except String PoolInfo :=
  if (a = "BTC" ∧ b = "HBD") ∨ (a = "HBD" ∧ b = "BTC") then
    .ok { contractId := "btc-hbd-pool", asset0 := "BTC", asset1 := "HBD" }
  else if (a = "HBD_SAVINGS" ∧ b = "HBD") ∨ (a = "HBD" ∧ b = "HBD_SAVINGS") then
    .ok { contractId := "hbd-savings-hbd-pool", asset0 := "HBD_SAVINGS", asset1 := "HBD" }
  else if (a = "HBD" ∧ b = "HIVE") ∨ (a = "HIVE" ∧ b = "HBD") then
    .ok { contractId := "hive-hbd-pool", asset0 := "HBD", asset1 := "HIVE" }
  else .error ("no pool found for " ++ a ++ "/" ++ b)

/-- `findPool` of the service: consult the querier when present and fall
through to the hardcoded pools on error or no match. -/
def findPool (env : Env) (a b : String) : Except String PoolInfo :=
  match env.poolQuerier with
  | some q =>
      match q.getPoolsByAsset a with
      | .ok pools =>
          match findPoolScan pools a b with
          | some p => .ok p
          | none => fallbackPool a b
      | .error _ => fallbackPool a b
  | none => fallbackPool a b

/-- The hardcoded default reserves (`getDefaultPoolWithReserves`). -/
def getDefaultPoolWithReserves (cid : String) :
    Except String PoolInfoWithReserves :=
  if cid = "btc-hbd-pool" then
    .ok { contractId := "btc-hbd-pool", asset0 := "BTC", asset1 := "HBD",
          reserve0 := 100000000, reserve1 := 10000000, fee := 8 }
  else if cid = "hbd-savings-hbd-pool" then
    .ok { contractId := "hbd-savings-hbd-pool", asset0 := "HBD_SAVINGS",
          asset1 := "HBD", reserve0 := 10000000, reserve1 := 10000000, fee := 8 }
  else if cid = "hive-hbd-pool" then
    .ok { contractId := "hive-hbd-pool", asset0 := "HBD", asset1 := "HIVE",
          reserve0 := 10000000, reserve1 := 10000000, fee := 8 }
  else .error ("pool not found: " ++ cid)

def getPoolWithReserves (env : Env) (cid : String) :
    Except String PoolInfoWithReserves :=
  match env.poolQuerier with
  | some q => q.getPoolByID cid
  | none => getDefaultPoolWithReserves cid

/-- `executeDirectSwap` of the routing service.  Pure: the service only
computes a projection; no pool state is mutated here.  The constant-product
step uses `big.Int` in the source, so it is embedded with exact natural
arithmetic, and the narrowing check (`Sign() <= 0 || !IsUint64()`) is the
explicit out-of-bounds rejection. -/
def executeDirectSwap (env : Env) (params : SwapParams) : SwapResult :=
  if params.amountIn ≤ 0 then fail "amount in must be greater than zero"
  else if 4611686018427387904 < params.amountIn then fail "swap amount too large"
  else
    match findPool env params.assetIn params.assetOut with
    | .error e => fail ("no pool found for " ++ params.assetIn ++ "/"
        ++ params.assetOut ++ ": " ++ e)
    | .ok pool =>
      match getPoolWithReserves env pool.contractId with
      | .error e => fail ("failed to get pool reserves: " ++ e)
      | .ok pws =>
        let reserveIn := if pws.asset0 = params.assetIn then pws.reserve0
          else pws.reserve1
        let reserveOut := if pws.asset0 = params.assetIn then pws.reserve1
          else pws.reserve0
        if reserveIn = 0 ∨ reserveOut = 0 then fail "pool has zero reserves"
        else
          let maxAllowedAmount := wrap (reserveIn * 50) / 100
          let amountInUint64 := params.amountIn.toNat
          if maxAllowedAmount < amountInUint64 then
            fail ("swap amount exceeds maximum allowed (50% of reserve): max "
              ++ toString maxAllowedAmount ++ ", requested "
              ++ toString amountInUint64)
          else
            let feeBps0 := pws.fee
            let feeBps := if feeBps0 = 0 then 8 else feeBps0
            if 10000 ≤ feeBps then fail "invalid fee: must be less than 100%"
            else
              let feeMultiplier := 10000 - feeBps
              let amountInAfterFee := wrap (amountInUint64 * feeMultiplier) / 10000
              if amountInAfterFee = 0 then fail "swap amount too small after fees"
              else
                let k := reserveIn * reserveOut
                let newReserveIn := reserveIn + amountInAfterFee
                let amountOutInt : ℤ := (reserveOut : ℤ) - (k / newReserveIn : ℕ)
                if amountOutInt ≤ 0 ∨ (18446744073709551616 : ℤ) ≤ amountOutInt then
                  fail "invalid swap output calculation: result out of bounds"
                else
                  let amountOut := amountOutInt.toNat
                  if amountOut = 0 then fail "swap output is zero"
                  else if reserveOut ≤ amountOut then
                    fail "invalid swap output calculation: output exceeds reserve"
                  else if 0 < params.minAmountOut
                      ∧ (amountOut : ℤ) < params.minAmountOut then
                    fail ("slippage tolerance exceeded: expected at least "
                      ++ toString params.minAmountOut ++ ", got "
                      ++ toString amountOut)
                  else
                    let fee : ℤ := params.amountIn - (amountInAfterFee : ℤ)
                    let hbdAmount : ℤ := if params.assetOut = "HBD" then
                        (amountOut : ℤ)
                      else if params.assetIn = "HBD" then params.amountIn
                      else (amountOut : ℤ)
                    { success := true, amountOut := (amountOut : ℤ),
                      hbdAmount := hbdAmount, fee0 := fee, fee1 := 0,
                      route := ["hive"], errorMessage := "" }

/-- `calculateExpectedOutput`: the read-only projection used before the
two-hop swap; clamps a zero effective input to 1 instead of failing. -/
def calculateExpectedOutput (env : Env) (amountIn : ℤ)
    (contractId assetIn assetOut : String) : Except String ℤ :=
  if amountIn ≤ 0 then .error "amount in must be greater than zero"
  else
    match getPoolWithReserves env contractId with
    | .error e => .error ("failed to get pool reserves: " ++ e)
    | .ok pool =>
      if pool.asset0 = assetIn ∨ pool.asset1 = assetIn then
        let reserveIn := if pool.asset0 = assetIn then pool.reserve0
          else pool.reserve1
        let reserveOut := if pool.asset0 = assetIn then pool.reserve1
          else pool.reserve0
        if reserveIn = 0 ∨ reserveOut = 0 then .error "pool has zero reserves"
        else
          let feeBps0 := pool.fee
          let feeBps := if feeBps0 = 0 then 8 else feeBps0
          let feeMultiplier := wsub 10000 feeBps
          let amountInAfterFee0 := wrap (amountIn.toNat * feeMultiplier) / 10000
          let amountInAfterFee := if amountInAfterFee0 = 0 then 1
            else amountInAfterFee0
          let k := reserveIn * reserveOut
          let newReserveIn := reserveIn + amountInAfterFee
          let amountOutInt : ℤ := (reserveOut : ℤ) - (k / newReserveIn : ℕ)
          if amountOutInt ≤ 0 ∨ (18446744073709551616 : ℤ) ≤ amountOutInt then
            .error "invalid swap output calculation: result out of bounds"
          else
            let amountOut := amountOutInt.toNat
            if reserveOut ≤ amountOut then
              .error "invalid swap output calculation: output exceeds reserve"
            else .ok (amountOut : ℤ)
      else .error ("asset " ++ assetIn ++ " not found in pool")

/-- `ExecuteSwap`: asset validation, direct HBD swaps, or the two-hop route
through the HBD bridge.  `calcMin` abstracts the floating-point
`calculateMinOutput(expected, maxSlippage, ratio)`; the flag distinguishes
the final-leg call (`ratio = 1.0`, `true`) from the middle-leg call
(`ratio = MiddleOutRatio`, `false`).  It is only consulted after both hop
pools have been found and both projections succeeded. -/
def ExecuteSwap (env : Env) (calcMin : ℤ → ℕ → Bool → ℤ)
    (params : SwapParams) : SwapResult :=
  if params.assetIn = params.assetOut then fail "cannot swap asset to itself"
  else if params.assetIn = "HBD" ∨ params.assetOut = "HBD" then
    executeDirectSwap env params
  else
    match findPool env params.assetIn "HBD" with
    | .error e => fail ("no pool found for " ++ params.assetIn ++ "/HBD: " ++ e)
    | .ok pool1 =>
      match findPool env "HBD" params.assetOut with
      | .error e => fail ("no pool found for HBD/" ++ params.assetOut ++ ": " ++ e)
      | .ok pool2 =>
        match calculateExpectedOutput env params.amountIn pool1.contractId
          params.assetIn "HBD" with
        | .error e => fail ("failed to calculate HBD output: " ++ e)
        | .ok expectedHbdOut =>
          match calculateExpectedOutput env expectedHbdOut pool2.contractId
            "HBD" params.assetOut with
          | .error e => fail ("failed to calculate final output: " ++ e)
          | .ok expectedFinalOut =>
            let minHbdOut := calcMin expectedHbdOut params.maxSlippage false
            let minFinalOut0 := calcMin expectedFinalOut params.maxSlippage true
            let minFinalOut := if minFinalOut0 < params.minAmountOut then
                params.minAmountOut
              else minFinalOut0
            let firstResult := executeDirectSwap env
              { sender := params.sender, amountIn := params.amountIn,
                assetIn := params.assetIn, assetOut := "HBD",
                minAmountOut := minHbdOut, maxSlippage := params.maxSlippage,
                beneficiary := params.beneficiary, refBps := params.refBps }
            if !firstResult.success then
              { fail ("first swap failed: " ++ firstResult.errorMessage) with
                route := [] }
            else
              let secondResult := executeDirectSwap env
                { sender := params.sender, amountIn := firstResult.hbdAmount,
                  assetIn := "HBD", assetOut := params.assetOut,
                  minAmountOut := minFinalOut, maxSlippage := params.maxSlippage,
                  beneficiary := params.beneficiary, refBps := params.refBps }
              if !secondResult.success then
                fail ("second swap failed: " ++ secondResult.errorMessage)
              else
                { success := true, amountOut := secondResult.amountOut,
                  hbdAmount := firstResult.hbdAmount,
                  fee0 := firstResult.fee0, fee1 := secondResult.fee0,
                  route := ["hive", "hbd-intermediate"], errorMessage := "" }

end RouterSvc

namespace RouterSvc

/-- Input-side reserve resolved by `executeDirectSwap`. -/
def svcReserveIn (params : SwapParams) (pws : PoolInfoWithReserves) : ℕ :=
  if pws.asset0 = params.assetIn then pws.reserve0 else pws.reserve1

/-- Output-side reserve resolved by `executeDirectSwap`. -/
def svcReserveOut (params : SwapParams) (pws : PoolInfoWithReserves) : ℕ :=
  if pws.asset0 = params.assetIn then pws.reserve1 else pws.reserve0

/-- The fee actually charged (a stored fee of 0 falls back to 8 bps). -/
def svcFeeBps (pws : PoolInfoWithReserves) : ℕ :=
  if pws.fee = 0 then 8 else pws.fee

/-- The fee-adjusted input amount of the service swap. -/
def svcAfterFee (params : SwapParams) (pws : PoolInfoWithReserves) : ℕ :=
  wrap (params.amountIn.toNat * (10000 - svcFeeBps pws)) / 10000

/-- The signed output (`reserveOut - k / newReserveIn`) before the
narrowing checks. -/
def svcOutInt (params : SwapParams) (pws : PoolInfoWithReserves) : ℤ :=
  (svcReserveOut params pws : ℤ)
    - ((svcReserveIn params pws * svcReserveOut params pws
        / (svcReserveIn params pws + svcAfterFee params pws) : ℕ) : ℤ)

/-- `executeDirectSwap` after pool resolution, staged through the named
intermediates (definitionally equal to the source-shaped body, see
`executeDirectSwap_eq_tail`). -/
def svcTail (params : SwapParams) (pws : PoolInfoWithReserves) : SwapResult :=
  if svcReserveIn params pws = 0 ∨ svcReserveOut params pws = 0 then
    fail "pool has zero reserves"
  else if wrap (svcReserveIn params pws * 50) / 100 < params.amountIn.toNat then
    fail ("swap amount exceeds maximum allowed (50% of reserve): max "
      ++ toString (wrap (svcReserveIn params pws * 50) / 100)
      ++ ", requested " ++ toString params.amountIn.toNat)
  else if 10000 ≤ svcFeeBps pws then fail "invalid fee: must be less than 100%"
  else if svcAfterFee params pws = 0 then fail "swap amount too small after fees"
  else if svcOutInt params pws ≤ 0
      ∨ (18446744073709551616 : ℤ) ≤ svcOutInt params pws then
    fail "invalid swap output calculation: result out of bounds"
  else if (svcOutInt params pws).toNat = 0 then fail "swap output is zero"
  else if svcReserveOut params pws ≤ (svcOutInt params pws).toNat then
    fail "invalid swap output calculation: output exceeds reserve"
  else if 0 < params.minAmountOut
      ∧ ((svcOutInt params pws).toNat : ℤ) < params.minAmountOut then
    fail ("slippage tolerance exceeded: expected at least "
      ++ toString params.minAmountOut ++ ", got "
      ++ toString (svcOutInt params pws).toNat)
  else
    { success := true, amountOut := ((svcOutInt params pws).toNat : ℤ),
      hbdAmount := if params.assetOut = "HBD" then
          ((svcOutInt params pws).toNat : ℤ)
        else if params.assetIn = "HBD" then params.amountIn
        else ((svcOutInt params pws).toNat : ℤ),
      fee0 := params.amountIn - ((svcAfterFee params pws : ℕ) : ℤ), fee1 := 0,
      route := ["hive"], errorMessage := "" }

end RouterSvc

/-! ## Lemmas about the V2 swap components -/

namespace V2

theorem effIn_pos (aIn feeBps : ℕ) (b : Bool) (h : 0 < aIn) :
    0 < effIn aIn feeBps b := by
  unfold effIn
  split <;> omega

theorem effIn_le (aIn feeBps : ℕ) (b : Bool) (hf : feeBps ≤ 10000)
    (h : 0 < aIn) : effIn aIn feeBps b ≤ aIn := by
  have hws : wsub 10000 feeBps = 10000 - feeBps :=
    wsub_eq_sub hf (by unfold U64; omega)
  have h0 : effIn0 aIn feeBps b ≤ aIn := by
    unfold effIn0
    split
    · rw [hws]
      calc wrap (aIn * (10000 - feeBps)) / 10000
          ≤ aIn * 10000 / 10000 := Nat.div_le_div_right
            (le_trans (wrap_le _) (Nat.mul_le_mul_left aIn (by omega)))
        _ = aIn := Nat.mul_div_cancel aIn (show 0 < 10000 by omega)
    · exact Nat.le_refl aIn
  unfold effIn
  split <;> omega

theorem applySlip_le (baseline share rIn rOut dxEff dy : ℕ) :
    applySlip baseline share rIn rOut dxEff dy ≤ dy := by
  simp only [applySlip]
  repeat' split
  all_goals omega

theorem applySlip_pos (baseline share rIn rOut dxEff dy : ℕ) (h : 0 < dy) :
    0 < applySlip baseline share rIn rOut dxEff dy := by
  simp only [applySlip]
  repeat' split
  all_goals omega

theorem swap0to1_inv (sender : String) (aIn minOut : ℕ) (ben : String)
    (ref : ℕ) (s s' : PoolState) (effs : List Eff)
    (hok : Swap sender "0to1" aIn minOut ben ref s = .ok (s', effs)) :
    0 < aIn ∧ 0 < s.reserve0 ∧ 0 < s.reserve1 ∧ 0 < kV s ∧
    0 < newXV aIn s ∧ 0 < dyV aIn s ∧ dyV aIn s < s.reserve1 ∧
    minOut ≤ dyUserV aIn s ∧
    s'.reserve0 = newXV aIn s ∧
    s'.reserve1 = wsub s.reserve1 (dyUserV aIn s) ∧
    s'.totalLP = s.totalLP ∧ s'.lps = s.lps ∧
    s'.asset0 = s.asset0 ∧ s'.asset1 = s.asset1 := by
  simp only [Swap] at hok
  split at hok
  · exact Except.noConfusion hok
  split at hok
  · exact Except.noConfusion hok
  split at hok
  case isFalse hcon => exact absurd trivial hcon
  split at hok
  · exact Except.noConfusion hok
  split at hok
  · exact Except.noConfusion hok
  split at hok
  · exact Except.noConfusion hok
  split at hok
  · exact Except.noConfusion hok
  rename_i hAIn hRes htriv hNewX hK hDy hMin
  push_neg at hRes hDy hMin
  split at hok <;>
  · rw [Except.ok.injEq, Prod.mk.injEq] at hok
    obtain ⟨hs, he⟩ := hok
    subst hs
    exact ⟨by omega, hRes.1, hRes.2, by omega, by omega, hDy.1,
      by omega, by omega, rfl, rfl, rfl, rfl, rfl, rfl⟩

theorem swap1to0_inv (sender : String) (aIn minOut : ℕ) (ben : String)
    (ref : ℕ) (s s' : PoolState) (effs : List Eff)
    (hok : Swap sender "1to0" aIn minOut ben ref s = .ok (s', effs)) :
    0 < aIn ∧ 0 < s.reserve0 ∧ 0 < s.reserve1 ∧ 0 < kV s ∧
    0 < newYV aIn s ∧ 0 < dxOutV aIn s ∧ dxOutV aIn s < s.reserve0 ∧
    minOut ≤ dxUserNetV aIn ref s ∧
    s'.reserve1 = newYV aIn s ∧
    s'.reserve0 = wsub s.reserve0 (dxUserTotalV aIn s) ∧
    s'.totalLP = s.totalLP ∧ s'.lps = s.lps ∧
    s'.asset0 = s.asset0 ∧ s'.asset1 = s.asset1 := by
  simp only [Swap] at hok
  split at hok
  · exact Except.noConfusion hok
  split at hok
  · exact Except.noConfusion hok
  split at hok
  case isTrue h => exact absurd h (by decide)
  split at hok
  case isFalse h => exact absurd trivial h
  split at hok
  · exact Except.noConfusion hok
  split at hok
  · exact Except.noConfusion hok
  split at hok
  · exact Except.noConfusion hok
  split at hok
  · exact Except.noConfusion hok
  rename_i hAIn hRes hject htriv hNewY hK hDxOut hMin
  push_neg at hRes hDxOut hMin
  rw [Except.ok.injEq, Prod.mk.injEq] at hok
  obtain ⟨hs, he⟩ := hok
  subst hs
  exact ⟨by omega, hRes.1, hRes.2, by omega, by omega, hDxOut.1,
    by omega, by omega, rfl, rfl, rfl, rfl, rfl, rfl⟩

theorem swap_lps_totalLP (sender dir : String) (aIn minOut : ℕ)
    (ben : String) (ref : ℕ) (s s' : PoolState) (effs : List Eff)
    (hok : Swap sender dir aIn minOut ben ref s = .ok (s', effs)) :
    s'.totalLP = s.totalLP ∧ s'.lps = s.lps := by
  simp only [Swap] at hok
  split at hok
  · exact Except.noConfusion hok
  split at hok
  · exact Except.noConfusion hok
  split at hok
  · split at hok
    · exact Except.noConfusion hok
    split at hok
    · exact Except.noConfusion hok
    split at hok
    · exact Except.noConfusion hok
    split at hok
    · exact Except.noConfusion hok
    split at hok <;>
    · rw [Except.ok.injEq, Prod.mk.injEq] at hok
      obtain ⟨hs, he⟩ := hok
      subst hs
      exact ⟨rfl, rfl⟩
  · split at hok
    · split at hok
      · exact Except.noConfusion hok
      split at hok
      · exact Except.noConfusion hok
      split at hok
      · exact Except.noConfusion hok
      split at hok
      · exact Except.noConfusion hok
      rw [Except.ok.injEq, Prod.mk.injEq] at hok
      obtain ⟨hs, he⟩ := hok
      subst hs
      exact ⟨rfl, rfl⟩
    · exact Except.noConfusion hok

theorem swap_dir_cases (sender dir : String) (aIn minOut : ℕ)
    (ben : String) (ref : ℕ) (s s' : PoolState) (effs : List Eff)
    (hok : Swap sender dir aIn minOut ben ref s = .ok (s', effs)) :
    dir = "0to1" ∨ dir = "1to0" := by
  simp only [Swap] at hok
  split at hok
  · exact Except.noConfusion hok
  split at hok
  · exact Except.noConfusion hok
  split at hok
  · rename_i h; exact Or.inl h
  split at hok
  · rename_i h; exact Or.inr h
  · exact Except.noConfusion hok

end V2

/-! ## Claims -/

/-- C1 counterexample: swapping 1 unit into the pool with reserves (3, 3)
(no base fee, slip fee off) succeeds and leaves reserves (4, 2), so the
product of reserves drops from 9 to 8.  The integer division in
`dy = r1 - k/newX` rounds the output up in the trader's favour, so the
constant product is not non-decreasing as claimed. -/
theorem C1_product_can_decrease_cex :
    (V2.Swap "B" "0to1" 1 0 "" 0
        ⟨"hive", "hbd", 0, 0, 0, 3, 3, 3, 0, 0, [("A", 3)]⟩).map
      (fun p => p.1.reserve0 * p.1.reserve1) = .ok 8 ∧ (8 : ℕ) < 3 * 3 :=
  ⟨rfl, by omega⟩

/-- C1 (amended): for a successful swap in either direction, with any fee
(≤ 10000 bps) and any slip-fee parameters, provided the 64-bit products and
sums involved do not wrap (pre-swap reserve product and input-side reserve
plus input below `2^64`), the post-swap reserve product is greater than the
pre-swap product minus the updated input-side reserve: the product can
decrease, but only by the flooring remainder, which is less than the larger
post-swap reserve. -/
theorem C1_product_bounded_decrease (sender dir : String)
    (aIn minOut : ℕ) (ben : String) (ref : ℕ) (s s' : V2.PoolState)
    (effs : List Eff)
    (hfee : s.baseFeeBps ≤ 10000)
    (hk : s.reserve0 * s.reserve1 < U64)
    (h0 : s.reserve0 + aIn < U64) (h1 : s.reserve1 + aIn < U64)
    (hok : V2.Swap sender dir aIn minOut ben ref s = .ok (s', effs)) :
    s.reserve0 * s.reserve1 <
      s'.reserve0 * s'.reserve1 + max s'.reserve0 s'.reserve1 := by
  rcases V2.swap_dir_cases sender dir aIn minOut ben ref s s' effs hok with
    hdir | hdir <;> subst hdir
  · obtain ⟨haIn, hr0, hr1, hkpos, hnX, hdy, hdylt, hmin, hs0, hs1,
      _, _, _, _⟩ := V2.swap0to1_inv sender aIn minOut ben ref s s' effs hok
    have hdxpos : 0 < V2.dxEffV aIn s :=
      V2.effIn_pos aIn s.baseFeeBps (V2.feeApplies s) haIn
    have hdxle : V2.dxEffV aIn s ≤ aIn :=
      V2.effIn_le aIn s.baseFeeBps (V2.feeApplies s) hfee haIn
    have hkeq : V2.kV s = s.reserve0 * s.reserve1 := wrap_eq_of_lt hk
    have hnXeq : V2.newXV aIn s = s.reserve0 + V2.dxEffV aIn s := by
      unfold V2.newXV
      exact wrap_eq_of_lt (by omega)
    have hqle : V2.kV s / V2.newXV aIn s ≤ s.reserve1 := by
      rw [hkeq, hnXeq]
      rw [Nat.div_le_iff_le_mul_add_pred (by omega)]
      have hmul : s.reserve0 * s.reserve1
          ≤ (s.reserve0 + V2.dxEffV aIn s) * s.reserve1 :=
        Nat.mul_le_mul_right s.reserve1 (by omega)
      omega
    have hr1U : s.reserve1 < U64 := by omega
    have hdyeq : V2.dyV aIn s
        = s.reserve1 - V2.kV s / V2.newXV aIn s := by
      unfold V2.dyV
      exact wsub_eq_sub hqle hr1U
    have huserle : V2.dyUserV aIn s ≤ V2.dyV aIn s := V2.applySlip_le _ _ _ _ _ _
    have hs1' : s'.reserve1 = s.reserve1 - V2.dyUserV aIn s := by
      rw [hs1]
      exact wsub_eq_sub (by omega) hr1U
    have hprod : V2.newXV aIn s * (V2.kV s / V2.newXV aIn s)
        ≤ s'.reserve0 * s'.reserve1 := by
      rw [hs0, hs1']
      exact Nat.mul_le_mul_left (V2.newXV aIn s) (by omega)
    have hdm := Nat.div_add_mod (V2.kV s) (V2.newXV aIn s)
    have hmod : V2.kV s % V2.newXV aIn s < V2.newXV aIn s :=
      Nat.mod_lt _ hnX
    have hmax : s'.reserve0 ≤ max s'.reserve0 s'.reserve1 := le_max_left _ _
    omega
  · obtain ⟨haIn, hr0, hr1, hkpos, hnY, hdx, hdxlt, hmin, hs1, hs0,
      _, _, _, _⟩ := V2.swap1to0_inv sender aIn minOut ben ref s s' effs hok
    have hkeq : V2.kV s = s.reserve0 * s.reserve1 := wrap_eq_of_lt hk
    have hnYeq : V2.newYV aIn s = s.reserve1 + aIn := by
      unfold V2.newYV
      exact wrap_eq_of_lt (by omega)
    have hqle : V2.kV s / V2.newYV aIn s ≤ s.reserve0 := by
      rw [hkeq, hnYeq]
      rw [Nat.div_le_iff_le_mul_add_pred (by omega)]
      have hmul : s.reserve0 * s.reserve1 ≤ (s.reserve1 + aIn) * s.reserve0 := by
        rw [Nat.mul_comm]
        exact Nat.mul_le_mul_right s.reserve0 (by omega)
      omega
    have hr0U : s.reserve0 < U64 := by omega
    have hdxeq : V2.dxOutV aIn s
        = s.reserve0 - V2.kV s / V2.newYV aIn s := by
      unfold V2.dxOutV
      exact wsub_eq_sub hqle hr0U
    have huserle : V2.dxUserTotalV aIn s ≤ V2.dxOutV aIn s :=
      V2.applySlip_le _ _ _ _ _ _
    have hs0' : s'.reserve0 = s.reserve0 - V2.dxUserTotalV aIn s := by
      rw [hs0]
      exact wsub_eq_sub (by omega) hr0U
    have hprod : V2.newYV aIn s * (V2.kV s / V2.newYV aIn s)
        ≤ s'.reserve1 * s'.reserve0 := by
      rw [hs1, hs0']
      exact Nat.mul_le_mul_left (V2.newYV aIn s) (by omega)
    have hdm := Nat.div_add_mod (V2.kV s) (V2.newYV aIn s)
    have hmod : V2.kV s % V2.newYV aIn s < V2.newYV aIn s :=
      Nat.mod_lt _ hnY
    have hmax : s'.reserve1 ≤ max s'.reserve0 s'.reserve1 := le_max_right _ _
    have hcomm : s'.reserve0 * s'.reserve1 = s'.reserve1 * s'.reserve0 :=
      Nat.mul_comm _ _
    omega

/-- C1 witness: the bounded-decrease bound at the concrete (2, 2) pool with
a 1-unit swap: product before 4, after 3 = 3 * 1, and 4 < 3 + max 3 1. -/
theorem C1_product_bounded_decrease_witness :
    (2 : ℕ) * 2 < 3 * 1 + max 3 1 := by
  have hok : V2.Swap "T" "0to1" 1 0 "" 0
      (⟨"hive", "hbd", 0, 0, 0, 5, 2, 2, 0, 0, [("A", 5)]⟩ : V2.PoolState)
      = .ok (⟨"hive", "hbd", 0, 0, 0, 5, 3, 1, 0, 0, [("A", 5)]⟩,
        [Eff.draw 1 "hive", Eff.transfer "T" 1 "hbd"]) := by rfl
  have h := C1_product_bounded_decrease "T" "0to1" 1 0 "" 0 _ _ _
    (by decide) (by decide) (by decide) (by decide) hok
  exact h

/-- C2: in the dex-router contract, `executeDirectSwap` consumes
`min_amount_out` as the input amount and never compares the final output
against it; the reserve and fee-bucket writes precede the slippage-ratio
check.  With pool reserves (1000, 1000), fee 8 bps and
`min_amount_out = 100`, the swap succeeds, pays the recipient only
91 < 100, and commits the reserve writes (1099, 909) and the fee-bucket
write (fee0 = 1).  (The single-pair pool contract `Swap` does assert
`dyUser >= minOut` before its reserve writes.) -/
theorem C2_router_mutates_without_min_out_check :
    DexRouter.executeDirectSwap
      ⟨"1.0.0", 2, [("1", ⟨"HBD", "HIVE", 1000, 1000, 8, 1000, 0, 0,
        [("hive:lp", 1000)]⟩)]⟩
      "1" ⟨"swap", "1.0.0", "HBD", "HIVE", "hive:user", none, some 100,
        none, none⟩
      = (none,
        ⟨"1.0.0", 2, [("1", ⟨"HBD", "HIVE", 1099, 909, 8, 1000, 1, 0,
          [("hive:lp", 1000)]⟩)]⟩,
        [Eff.draw 100 "HBD", Eff.transfer "hive:user" 91 "HIVE"])
    ∧ (91 : ℕ) < 100 :=
  ⟨rfl, by omega⟩

/-- C3 counterexample: the pool contract computes `k = r0 * r1` in plain
64-bit arithmetic.  With reserves (3·2^31, 3·2^31) the true product 9·2^62
wraps to 2^62, and a `0to1` swap of 2^31 (no fee, slip fee off) succeeds,
paying out 5905580032 instead of the exact constant-product output
1610612736: silent truncation rather than an out-of-bounds rejection. -/
theorem C3_contract_truncates_silently_cex :
    (V2.Swap "B" "0to1" 2147483648 0 "" 0
        ⟨"hive", "hbd", 0, 0, 0, 100, 6442450944, 6442450944, 0, 0,
          [("A", 100)]⟩).map (fun p => p.2)
      = .ok [Eff.draw 2147483648 "hive", Eff.transfer "B" 5905580032 "hbd"]
    ∧ (5905580032 : ℕ)
      ≠ 6442450944 - 6442450944 * 6442450944 / (6442450944 + 2147483648) :=
  ⟨rfl, by decide⟩

/-- Modelled from the spec: the proportional mint formula as written in the
spec, `min(amount0 × totalLiquidityClaims / reserve0, amount1 ×
totalLiquidityClaims / reserve1)` under exact integer (floor) division. -/
def specProportionalMint (amount0 amount1 totalLP r0 r1 : ℕ) : ℕ :=
  min (amount0 * totalLP / r0) (amount1 * totalLP / r1)

/-- C4 counterexample: at a pool state with reserves (16, 1) and
totalLiquidityClaims 4, AddLiquidity of (2^62, 1) fails its minted > 0
assertion, because the 64-bit product 2^62 × 4 = 2^64 wraps to 0; the
spec formula gives min(2^60, 4) = 4 > 0, so by the claim the call should
succeed and mint 4. -/
theorem C4_proportional_mint_wraps_cex :
    V2.AddLiquidity "B" 4611686018427387904 1
        ⟨"hbd", "hive", 8, 0, 0, 4, 16, 1, 0, 0, [("A", 4)]⟩
      = .error "assertion failed"
    ∧ specProportionalMint 4611686018427387904 1 4 16 1 = 4 :=
  ⟨rfl, by decide⟩

/-- C6 counterexample: a swap of 2^62 + 1 units of BTC against the BTC/HBD
pool (input reserve 10^8) requests far more than 50% of the reserve, but is
rejected by the earlier overflow guard with "swap amount too large" rather
than with the pool-drain-protection error. -/
theorem C6_large_amount_other_error_cex :
    RouterSvc.executeDirectSwap ⟨none⟩
        ⟨"x", 4611686018427387905, "BTC", "HBD", 0, 0, "", 0⟩
      = RouterSvc.fail "swap amount too large"
    ∧ (2 : ℤ) * 4611686018427387905 > 100000000 :=
  ⟨rfl, by decide⟩

/-- C7 counterexample: in the routing service, a 1-unit BTC→HBD swap whose
fee-adjusted input rounds to zero (1 × 9992 / 10000 = 0) is rejected with
"swap amount too small after fees" instead of being clamped to 1. -/
theorem C7_service_rejects_small_input_cex :
    RouterSvc.executeDirectSwap ⟨none⟩ ⟨"x", 1, "BTC", "HBD", 0, 0, "", 0⟩
      = RouterSvc.fail "swap amount too small after fees" := rfl

/-- C8 counterexample: at a pool state with reserves (1, 1) and
totalLiquidityClaims 2^63, adding (3, 3) succeeds and mints 2^63 claims
(the wrapped product 3 × 2^63 mod 2^64 = 2^63 divided by reserve 1),
wrapping totalLiquidityClaims to 0; immediately removing exactly the
minted amount then fails its assertion, so the round trip neither returns
the deposited amounts nor restores the prior claim supply. -/
theorem C8_round_trip_breaks_cex :
    (V2.AddLiquidity "B" 3 3
        ⟨"hbd", "hive", 8, 0, 0, 9223372036854775808, 1, 1, 0, 0,
          [("A", 9223372036854775808)]⟩).map
      (fun p => (p.1.totalLP, getB p.1.lps "B"))
      = .ok (0, 9223372036854775808)
    ∧ ((V2.AddLiquidity "B" 3 3
        ⟨"hbd", "hive", 8, 0, 0, 9223372036854775808, 1, 1, 0, 0,
          [("A", 9223372036854775808)]⟩).bind
        (fun p => V2.RemoveLiquidity "B" 9223372036854775808 p.1))
      = .error "assertion failed" :=
  ⟨rfl, rfl⟩

/-- C9 counterexample: from a freshly initialized pool, deposit (1, 1)
(minting 1 claim for A), then deposit (2^64 − 1, 2^64 − 1) from B.  The
second deposit mints 2^64 − 1 claims (the contract puts no bound on parsed
amounts), so `totalLP + minted = 2^64` wraps the stored claim supply to 0
while the per-account balances sum to 2^64: the invariant fails on a
reachable state. -/
theorem C9_sum_invariant_reachable_cex :
    V2.Reachable (V2.Init "hbd" "hive" 8)
      ⟨"hbd", "hive", 8, 0, 0, 0, 0, 0, 0, 0,
        [("hive:a", 1), ("hive:b", 18446744073709551615)]⟩
    ∧ V2.sumLP ⟨"hbd", "hive", 8, 0, 0, 0, 0, 0, 0, 0,
        [("hive:a", 1), ("hive:b", 18446744073709551615)]⟩
      ≠ (0 : ℕ) := by
  constructor
  · have h1 : V2.AddLiquidity "hive:a" 1 1 (V2.Init "hbd" "hive" 8)
        = .ok (⟨"hbd", "hive", 8, 0, 0, 1, 1, 1, 0, 0, [("hive:a", 1)]⟩,
          [Eff.draw 1 "hbd", Eff.draw 1 "hive"]) := by
      unfold V2.AddLiquidity mintAmount V2.Init
      rw [sqrt128_eq]
      norm_num [setB, alistSet, getB, alistGet?, wrap, U64, toInt64]
    have h2 : V2.AddLiquidity "hive:b" 18446744073709551615
        18446744073709551615
        (⟨"hbd", "hive", 8, 0, 0, 1, 1, 1, 0, 0, [("hive:a", 1)]⟩ :
          V2.PoolState)
        = .ok (⟨"hbd", "hive", 8, 0, 0, 0, 0, 0, 0, 0,
            [("hive:a", 1), ("hive:b", 18446744073709551615)]⟩,
          [Eff.draw (-1) "hbd", Eff.draw (-1) "hive"]) := by rfl
    exact Relation.ReflTransGen.tail
      (Relation.ReflTransGen.tail (Relation.ReflTransGen.refl)
        (V2.Step.add _ _ _ _ _ _ h1))
      (V2.Step.add _ _ _ _ _ _ h2)
  · unfold V2.sumLP sumB
    decide

/-- C9 (amended): every one of the six pool operations preserves the
claim-balance invariant `sum(balances) = totalLiquidityClaims` (kept
together with the bound `totalLiquidityClaims < 2^64` that every stored
supply satisfies), provided AddLiquidity's 64-bit supply update
`totalLP + minted` does not overflow; RemoveLiquidity, Swap, Donate, Burn
and Transfer preserve it unconditionally. -/
theorem C9_sum_invariant_preserved :
    (∀ sender a0 a1 s s' e, sumB s.lps = s.totalLP → s.totalLP < U64 →
      s.totalLP + mintAmount a0 a1 s.totalLP s.reserve0 s.reserve1 < U64 →
      V2.AddLiquidity sender a0 a1 s = .ok (s', e) →
      sumB s'.lps = s'.totalLP ∧ s'.totalLP < U64)
    ∧ (∀ sender lp s s' e, sumB s.lps = s.totalLP → s.totalLP < U64 →
      V2.RemoveLiquidity sender lp s = .ok (s', e) →
      sumB s'.lps = s'.totalLP ∧ s'.totalLP < U64)
    ∧ (∀ sender dir aIn minOut ben ref s s' e, sumB s.lps = s.totalLP →
      s.totalLP < U64 →
      V2.Swap sender dir aIn minOut ben ref s = .ok (s', e) →
      sumB s'.lps = s'.totalLP ∧ s'.totalLP < U64)
    ∧ (∀ a0 a1 s, sumB s.lps = s.totalLP → s.totalLP < U64 →
      sumB (V2.Donate a0 a1 s).1.lps = (V2.Donate a0 a1 s).1.totalLP
        ∧ (V2.Donate a0 a1 s).1.totalLP < U64)
    ∧ (∀ sender amt s s' e, sumB s.lps = s.totalLP → s.totalLP < U64 →
      V2.Burn sender amt s = .ok (s', e) →
      sumB s'.lps = s'.totalLP ∧ s'.totalLP < U64)
    ∧ (∀ sender toAddr amt s s' e, sumB s.lps = s.totalLP →
      s.totalLP < U64 →
      V2.Transfer sender toAddr amt s = .ok (s', e) →
      sumB s'.lps = s'.totalLP ∧ s'.totalLP < U64) := by
  refine ⟨?_, ?_, ?_, ?_, ?_, ?_⟩
  · intro sender a0 a1 s s' e hsum hlt hov hok
    unfold V2.AddLiquidity at hok
    split at hok
    · exact Except.noConfusion hok
    split at hok
    · exact Except.noConfusion hok
    rename_i hnd hm
    rw [Except.ok.injEq, Prod.mk.injEq] at hok
    obtain ⟨hs, he⟩ := hok
    subst hs
    dsimp only
    constructor
    · split
      · rename_i hL0
        have hset := sumB_setB s.lps sender
          (mintAmount a0 a1 s.totalLP s.reserve0 s.reserve1)
        have hget := getB_le_sumB s.lps sender
        rw [wrap_eq_of_lt hov]
        omega
      · rename_i hL0
        have hget := getB_le_sumB s.lps sender
        have hval : wrap (getB s.lps sender
            + mintAmount a0 a1 s.totalLP s.reserve0 s.reserve1)
            = getB s.lps sender
              + mintAmount a0 a1 s.totalLP s.reserve0 s.reserve1 :=
          wrap_eq_of_lt (by omega)
        have hset := sumB_setB s.lps sender (getB s.lps sender
          + mintAmount a0 a1 s.totalLP s.reserve0 s.reserve1)
        rw [hval, wrap_eq_of_lt hov]
        omega
    · exact wrap_lt _
  · intro sender lp s s' e hsum hlt hok
    unfold V2.RemoveLiquidity at hok
    split at hok
    · exact Except.noConfusion hok
    rename_i hc
    push_neg at hc
    rw [Except.ok.injEq, Prod.mk.injEq] at hok
    obtain ⟨hs, he⟩ := hok
    subst hs
    dsimp only
    have hget := getB_le_sumB s.lps sender
    have hset := sumB_setB s.lps sender (getB s.lps sender - lp)
    have htot : wsub s.totalLP lp = s.totalLP - lp :=
      wsub_eq_sub (by omega) hlt
    constructor
    · omega
    · rw [htot]; omega
  · intro sender dir aIn minOut ben ref s s' e hsum hlt hok
    obtain ⟨h1, h2⟩ := V2.swap_lps_totalLP sender dir aIn minOut ben ref
      s s' e hok
    rw [h1, h2]
    exact ⟨hsum, hlt⟩
  · intro a0 a1 s hsum hlt
    unfold V2.Donate
    split <;> split <;> exact ⟨hsum, hlt⟩
  · intro sender amt s s' e hsum hlt hok
    unfold V2.Burn at hok
    split at hok
    · exact Except.noConfusion hok
    rename_i hc
    push_neg at hc
    rw [Except.ok.injEq, Prod.mk.injEq] at hok
    obtain ⟨hs, he⟩ := hok
    subst hs
    dsimp only
    have hget := getB_le_sumB s.lps sender
    have hset := sumB_setB s.lps sender (getB s.lps sender - amt)
    have htot : wsub s.totalLP amt = s.totalLP - amt :=
      wsub_eq_sub (by omega) hlt
    constructor
    · omega
    · rw [htot]; omega
  · intro sender toAddr amt s s' e hsum hlt hok
    unfold V2.Transfer at hok
    split at hok
    · exact Except.noConfusion hok
    rename_i hc
    push_neg at hc
    rw [Except.ok.injEq, Prod.mk.injEq] at hok
    obtain ⟨hs, he⟩ := hok
    subst hs
    dsimp only
    refine ⟨?_, hlt⟩
    unfold V2.transferLps
    by_cases hto : sender = toAddr
    · subst hto
      have hd := getB_setB_same s.lps sender (getB s.lps sender - amt)
      have hset1 := sumB_setB s.lps sender (getB s.lps sender - amt)
      have hval : wrap (getB (setB s.lps sender (getB s.lps sender - amt))
          sender + amt) = getB s.lps sender := by
        rw [hd]
        have : getB s.lps sender - amt + amt = getB s.lps sender := by omega
        rw [this]
        exact wrap_eq_of_lt (by
          have := getB_le_sumB s.lps sender
          omega)
      rw [hval]
      have hset2 := sumB_setB (setB s.lps sender (getB s.lps sender - amt))
        sender (getB s.lps sender)
      omega
    · have hd := getB_setB_ne s.lps sender toAddr
        (getB s.lps sender - amt) hto
      have hpair := getB_add_getB_le_sumB s.lps sender toAddr hto
      have hset1 := sumB_setB s.lps sender (getB s.lps sender - amt)
      have hval : wrap (getB (setB s.lps sender (getB s.lps sender - amt))
          toAddr + amt) = getB s.lps toAddr + amt := by
        rw [hd]
        exact wrap_eq_of_lt (by omega)
      rw [hval]
      have hset2 := sumB_setB (setB s.lps sender (getB s.lps sender - amt))
        toAddr (getB s.lps toAddr + amt)
      have hd2 := getB_setB_ne s.lps sender toAddr
        (getB s.lps sender - amt) hto
      omega

/-- C9 witness: the preservation conjuncts at concrete inputs: a deposit of
(2, 2) into a pool with reserves (2, 2) and one claim holder of the full
supply 2 mints 2 and keeps the balance sum equal to the new supply 4. -/
theorem C9_sum_invariant_preserved_witness :
    sumB ([("A", 4)] : List (String × ℕ)) = 4 ∧ (4 : ℕ) < U64 := by
  have hok : V2.AddLiquidity "A" 2 2
      (⟨"hbd", "hive", 8, 0, 0, 2, 2, 2, 0, 0, [("A", 2)]⟩ : V2.PoolState)
      = .ok (⟨"hbd", "hive", 8, 0, 0, 4, 4, 4, 0, 0, [("A", 4)]⟩,
        [Eff.draw 2 "hbd", Eff.draw 2 "hive"]) := by rfl
  exact C9_sum_invariant_preserved.1 "A" 2 2 _ _ _ (by decide) (by decide)
    (by decide) hok

/-- C8 (amended): provided the intermediate 64-bit computations do not
overflow (deposit × claim-supply products, reserve sums, claim supply plus
minted, and the provider balance plus minted all below `2^64`), adding
liquidity (a0, a1) to a pool with positive reserves and positive claims
and then immediately removing exactly the minted claim amount succeeds,
pays back at most (a0, a1), and restores `totalLiquidityClaims` to its
prior value.  (Without those bounds the round trip can fail outright, see
the counterexample.) -/
theorem C8_add_remove_round_trip
    (sender : String) (a0 a1 : ℕ) (s s1 : V2.PoolState) (e : List Eff)
    (hr0 : 0 < s.reserve0) (hr1 : 0 < s.reserve1) (hL : 0 < s.totalLP)
    (hp0 : a0 * s.totalLP < U64) (hp1 : a1 * s.totalLP < U64)
    (hq0 : s.reserve0 + a0 < U64) (hq1 : s.reserve1 + a1 < U64)
    (hLM : s.totalLP + mintAmount a0 a1 s.totalLP s.reserve0 s.reserve1 < U64)
    (hbal : getB s.lps sender
      + mintAmount a0 a1 s.totalLP s.reserve0 s.reserve1 < U64)
    (hok : V2.AddLiquidity sender a0 a1 s = .ok (s1, e)) :
    ∃ s2 e2, V2.RemoveLiquidity sender
        (mintAmount a0 a1 s.totalLP s.reserve0 s.reserve1) s1 = .ok (s2, e2)
      ∧ s1.reserve0 - s2.reserve0 ≤ a0
      ∧ s1.reserve1 - s2.reserve1 ≤ a1
      ∧ s2.totalLP = s.totalLP := by
  have hM : mintAmount a0 a1 s.totalLP s.reserve0 s.reserve1
      = min (a0 * s.totalLP / s.reserve0) (a1 * s.totalLP / s.reserve1) := by
    unfold mintAmount
    rw [if_neg (by omega), min64_eq_min, wrap_eq_of_lt hp0,
      wrap_eq_of_lt hp1]
  unfold V2.AddLiquidity at hok
  split at hok
  · exact Except.noConfusion hok
  split at hok
  · exact Except.noConfusion hok
  rename_i hnd hm
  rw [Except.ok.injEq, Prod.mk.injEq] at hok
  obtain ⟨hs, he⟩ := hok
  subst hs
  set M := mintAmount a0 a1 s.totalLP s.reserve0 s.reserve1 with hMdef
  have hMpos : 0 < M := by omega
  have hMr0 : M * s.reserve0 ≤ a0 * s.totalLP := by
    have h1 : M ≤ a0 * s.totalLP / s.reserve0 := by
      rw [hM]; exact min_le_left _ _
    calc M * s.reserve0 ≤ (a0 * s.totalLP / s.reserve0) * s.reserve0 :=
        Nat.mul_le_mul_right _ h1
      _ ≤ a0 * s.totalLP := Nat.div_mul_le_self _ _
  have hMr1 : M * s.reserve1 ≤ a1 * s.totalLP := by
    have h1 : M ≤ a1 * s.totalLP / s.reserve1 := by
      rw [hM]; exact min_le_right _ _
    calc M * s.reserve1 ≤ (a1 * s.totalLP / s.reserve1) * s.reserve1 :=
        Nat.mul_le_mul_right _ h1
      _ ≤ a1 * s.totalLP := Nat.div_mul_le_self _ _
  have hlps : (if s.totalLP = 0 then setB s.lps sender M
      else setB s.lps sender (wrap (getB s.lps sender + M)))
      = setB s.lps sender (getB s.lps sender + M) := by
    rw [if_neg (by omega), wrap_eq_of_lt hbal]
  have htot : wrap (s.totalLP + M) = s.totalLP + M := wrap_eq_of_lt hLM
  have hres0 : wrap (s.reserve0 + a0) = s.reserve0 + a0 := wrap_eq_of_lt hq0
  have hres1 : wrap (s.reserve1 + a1) = s.reserve1 + a1 := wrap_eq_of_lt hq1
  unfold V2.RemoveLiquidity
  dsimp only
  rw [hlps, htot, hres0, hres1, getB_setB_same]
  rw [if_neg (not_not_intro ⟨hMpos, by omega, by omega⟩)]
  refine ⟨_, _, rfl, ?_, ?_, ?_⟩
  · dsimp only
    unfold V2.rmOut0
    dsimp only [hres0, htot]
    have hout : wrap ((s.reserve0 + a0) * M) / (s.totalLP + M) ≤ a0 := by
      have hnum : (s.reserve0 + a0) * M ≤ a0 * (s.totalLP + M) := by
        have : (s.reserve0 + a0) * M = M * s.reserve0 + a0 * M := by ring
        have h2 : a0 * (s.totalLP + M) = a0 * s.totalLP + a0 * M := by ring
        omega
      calc wrap ((s.reserve0 + a0) * M) / (s.totalLP + M)
          ≤ a0 * (s.totalLP + M) / (s.totalLP + M) :=
            Nat.div_le_div_right (le_trans (wrap_le _) hnum)
        _ = a0 := Nat.mul_div_cancel a0 (by omega)
    have hle : wrap ((s.reserve0 + a0) * M) / (s.totalLP + M)
        ≤ s.reserve0 + a0 := by
      have hnum : (s.reserve0 + a0) * M ≤ (s.reserve0 + a0) * (s.totalLP + M) :=
        Nat.mul_le_mul_left _ (by omega)
      calc wrap ((s.reserve0 + a0) * M) / (s.totalLP + M)
          ≤ (s.reserve0 + a0) * (s.totalLP + M) / (s.totalLP + M) :=
            Nat.div_le_div_right (le_trans (wrap_le _) hnum)
        _ = s.reserve0 + a0 := Nat.mul_div_cancel _ (by omega)
    rw [wsub_eq_sub hle hq0]
    omega
  · dsimp only
    unfold V2.rmOut1
    dsimp only [hres1, htot]
    have hout : wrap ((s.reserve1 + a1) * M) / (s.totalLP + M) ≤ a1 := by
      have hnum : (s.reserve1 + a1) * M ≤ a1 * (s.totalLP + M) := by
        have : (s.reserve1 + a1) * M = M * s.reserve1 + a1 * M := by ring
        have h2 : a1 * (s.totalLP + M) = a1 * s.totalLP + a1 * M := by ring
        omega
      calc wrap ((s.reserve1 + a1) * M) / (s.totalLP + M)
          ≤ a1 * (s.totalLP + M) / (s.totalLP + M) :=
            Nat.div_le_div_right (le_trans (wrap_le _) hnum)
        _ = a1 := Nat.mul_div_cancel a1 (by omega)
    have hle : wrap ((s.reserve1 + a1) * M) / (s.totalLP + M)
        ≤ s.reserve1 + a1 := by
      have hnum : (s.reserve1 + a1) * M ≤ (s.reserve1 + a1) * (s.totalLP + M) :=
        Nat.mul_le_mul_left _ (by omega)
      calc wrap ((s.reserve1 + a1) * M) / (s.totalLP + M)
          ≤ (s.reserve1 + a1) * (s.totalLP + M) / (s.totalLP + M) :=
            Nat.div_le_div_right (le_trans (wrap_le _) hnum)
        _ = s.reserve1 + a1 := Nat.mul_div_cancel _ (by omega)
    rw [wsub_eq_sub hle hq1]
    omega
  · dsimp only
    rw [wsub_eq_sub (by omega) hLM]
    omega

/-- C8 witness: the round trip at a concrete pool: reserves (100, 100),
claims 100 held by A; A deposits (10, 10), minting 10, and removing 10
returns (10, 10) and restores the claim supply to 100. -/
theorem C8_add_remove_round_trip_witness :
    ∃ s2 e2, V2.RemoveLiquidity "A" 10
        (⟨"hbd", "hive", 8, 0, 0, 110, 110, 110, 0, 0,
          [("A", 110)]⟩ : V2.PoolState) = .ok (s2, e2)
      ∧ (110 : ℕ) - s2.reserve0 ≤ 10 ∧ (110 : ℕ) - s2.reserve1 ≤ 10
      ∧ s2.totalLP = 100 := by
  have hok : V2.AddLiquidity "A" 10 10
      (⟨"hbd", "hive", 8, 0, 0, 100, 100, 100, 0, 0,
        [("A", 100)]⟩ : V2.PoolState)
      = .ok (⟨"hbd", "hive", 8, 0, 0, 110, 110, 110, 0, 0,
          [("A", 110)]⟩,
        [Eff.draw 10 "hbd", Eff.draw 10 "hive"]) := by rfl
  have h := C8_add_remove_round_trip "A" 10 10 _ _ _
    (by decide) (by decide) (by decide) (by decide) (by decide)
    (by decide) (by decide) (by decide) (by decide) hok
  simpa using h

/-- C4 (amended): the first-deposit mint equals
`min(floor(sqrt(amount0 * amount1)), 2^63 - 1)` — the 128-bit product is
exact but the binary search result is capped at `2^63 - 1`; a subsequent
deposit mints `min(amount0 * totalLP mod 2^64 / reserve0,
amount1 * totalLP mod 2^64 / reserve1)` — the products wrap at 64 bits
rather than being widened; and with positive claims and reserves the
operation succeeds exactly when the minted amount is nonzero. -/
theorem C4_mint_formulas (sender : String) (a0 a1 : ℕ) (s : V2.PoolState)
    (hL : s.totalLP ≠ 0) (hr0 : 0 < s.reserve0) (hr1 : 0 < s.reserve1) :
    mintAmount a0 a1 0 s.reserve0 s.reserve1
      = min (Nat.sqrt (a0 * a1)) 9223372036854775807
    ∧ mintAmount a0 a1 s.totalLP s.reserve0 s.reserve1
        = min (wrap (a0 * s.totalLP) / s.reserve0)
            (wrap (a1 * s.totalLP) / s.reserve1)
    ∧ ((∃ r, V2.AddLiquidity sender a0 a1 s = .ok r)
        ↔ 0 < mintAmount a0 a1 s.totalLP s.reserve0 s.reserve1) := by
  refine ⟨?_, ?_, ?_⟩
  · unfold mintAmount
    rw [if_pos rfl, sqrt128_eq]
  · unfold mintAmount
    rw [if_neg hL, min64_eq_min]
  · unfold V2.AddLiquidity
    rw [if_neg (by omega)]
    constructor
    · rintro ⟨r, hr⟩
      by_contra hz
      rw [if_pos (by omega)] at hr
      exact Except.noConfusion hr
    · intro hpos
      rw [if_neg (by omega)]
      exact ⟨_, rfl⟩

/-- C4 witness: the formulas at `(a0, a1) = (4, 9)` over a pool with claims
2 and reserves `(2, 3)`. -/
theorem C4_mint_formulas_witness :
    mintAmount 4 9 0 2 3 = min (Nat.sqrt (4 * 9)) 9223372036854775807
    ∧ mintAmount 4 9 2 2 3 = min (wrap (4 * 2) / 2) (wrap (9 * 2) / 3)
    ∧ ((∃ r, V2.AddLiquidity "A" 4 9
          (⟨"hbd", "hive", 8, 0, 0, 2, 2, 3, 0, 0, [("A", 2)]⟩ :
            V2.PoolState) = .ok r)
        ↔ 0 < mintAmount 4 9 2 2 3) :=
  C4_mint_formulas "A" 4 9
    (⟨"hbd", "hive", 8, 0, 0, 2, 2, 3, 0, 0, [("A", 2)]⟩ : V2.PoolState)
    (by decide) (by decide) (by decide)

/-- `finishDirect` never fails and only appends the recipient transfer to
the effect list it is given. -/
theorem DexRouter.finishDirect_effs_inv (st1 : DexRouter.CState)
    (poolId : String) (inst : DexRouter.DexInstruction)
    (aIn aOut : ℕ) (ia oa : String) (fb : ℕ) (fs : Bool) (effs0 : List Eff)
    (o : Option String) (st2 : DexRouter.CState) (effs : List Eff)
    (h : DexRouter.finishDirect st1 poolId inst aIn aOut ia oa fb fs effs0
      = (o, st2, effs)) :
    o = none
    ∧ effs = effs0 ++ [Eff.transfer inst.recipient (toInt64 aOut) oa] := by
  unfold DexRouter.finishDirect at h
  dsimp only at h
  split at h
  · split at h
    · rw [Prod.mk.injEq, Prod.mk.injEq] at h
      exact ⟨h.1.symm, h.2.2.symm⟩
    · rw [Prod.mk.injEq, Prod.mk.injEq] at h
      exact ⟨h.1.symm, h.2.2.symm⟩
  · rw [Prod.mk.injEq, Prod.mk.injEq] at h
    exact ⟨h.1.symm, h.2.2.symm⟩

/-- A successful `directSwapTail` always emits the draw of the input
amount in the input asset as its first effect. -/
theorem DexRouter.directSwapTail_effs (st1 : DexRouter.CState)
    (poolId : String) (inst : DexRouter.DexInstruction)
    (aIn aOut : ℕ) (ia oa : String) (fb : ℕ) (fs : Bool)
    (st2 : DexRouter.CState) (effs : List Eff)
    (h : DexRouter.directSwapTail st1 poolId inst aIn aOut ia oa fb fs
      = (none, st2, effs)) :
    ∃ rest, effs = Eff.draw (toInt64 aIn) ia :: rest := by
  unfold DexRouter.directSwapTail at h
  dsimp only at h
  split at h
  · rw [Prod.mk.injEq] at h
    exact Option.noConfusion h.1
  · split at h
    · rename_i ben rb
      split at h
      · obtain ⟨-, he⟩ := DexRouter.finishDirect_effs_inv _ _ _ _ _ _ _ _ _ _ _ _ _ h
        exact ⟨_, by rw [he]; rfl⟩
      · obtain ⟨-, he⟩ := DexRouter.finishDirect_effs_inv _ _ _ _ _ _ _ _ _ _ _ _ _ h
        exact ⟨_, by rw [he]; rfl⟩
    · obtain ⟨-, he⟩ := DexRouter.finishDirect_effs_inv _ _ _ _ _ _ _ _ _ _ _ _ _ h
      exact ⟨_, by rw [he]; rfl⟩

/-- C10: in the dex-router contract the swap input amount is read from the
instruction's `min_amount_out` field: an instruction omitting it fails
with "amount_in required for swap" (direct) or "amount_in required for
two-hop swap" (two-hop) without touching state, and a successful direct
swap draws exactly the `min_amount_out` value of the input asset as its
first effect. -/
theorem C10_min_amount_out_is_input (st : DexRouter.CState)
    (poolId : String) (inst : DexRouter.DexInstruction) (v : ℤ)
    (st' : DexRouter.CState) (effs : List Eff) :
    (inst.minAmountOut = none →
      DexRouter.getPoolAsset0 st poolId ≠ "" →
      ¬(DexRouter.getPoolReserve0 st poolId = 0
        ∨ DexRouter.getPoolReserve1 st poolId = 0) →
      DexRouter.executeDirectSwap st poolId inst
        = (some "amount_in required for swap", st, []))
    ∧ (inst.minAmountOut = none →
      DexRouter.findPool st inst.assetIn "HBD" ≠ "" →
      DexRouter.findPool st "HBD" inst.assetOut ≠ "" →
      DexRouter.executeTwoHopSwap st inst
        = (some "amount_in required for two-hop swap", st, []))
    ∧ (inst.minAmountOut = some v →
      DexRouter.executeDirectSwap st poolId inst = (none, st', effs) →
      ∃ rest, effs = Eff.draw (toInt64 (u64ofInt v)) inst.assetIn :: rest) := by
  refine ⟨?_, ?_, ?_⟩
  · intro hmo hp hr
    unfold DexRouter.executeDirectSwap
    dsimp only
    rw [if_neg hp, if_neg hr, hmo]
  · intro hmo h1 h2
    unfold DexRouter.executeTwoHopSwap
    dsimp only
    rw [if_neg h1, if_neg h2, hmo]
  · intro hmo heq
    unfold DexRouter.executeDirectSwap at heq
    dsimp only at heq
    split at heq
    · simp at heq
    · split at heq
      · simp at heq
      · rw [hmo] at heq
        dsimp only at heq
        split at heq
        · rename_i hdir
          split at heq <;> split at heq
          · simp at heq
          · obtain ⟨rest, hrest⟩ :=
              DexRouter.directSwapTail_effs _ _ _ _ _ _ _ _ _ _ _ heq
            exact ⟨rest, by rw [hrest, hdir.1]⟩
          · simp at heq
          · obtain ⟨rest, hrest⟩ :=
              DexRouter.directSwapTail_effs _ _ _ _ _ _ _ _ _ _ _ heq
            exact ⟨rest, by rw [hrest, hdir.1]⟩
        · split at heq
          · rename_i hdir
            split at heq
            · simp at heq
            · obtain ⟨rest, hrest⟩ :=
                DexRouter.directSwapTail_effs _ _ _ _ _ _ _ _ _ _ _ heq
              exact ⟨rest, by rw [hrest, hdir.1]⟩
          · simp at heq

/-- C10 witness: a pool "1" HIVE/HBD with reserves (1000, 1000): a swap
instruction without `min_amount_out` is rejected with the
amount-in-required error and the state unchanged. -/
theorem C10_min_amount_out_is_input_witness :
    DexRouter.executeDirectSwap
      (⟨"1", 2, [("1", ⟨"HIVE", "HBD", 1000, 1000, 8, 0, 0, 0, []⟩)]⟩ :
        DexRouter.CState) "1"
      (⟨"swap", "1", "HIVE", "HBD", "hive:user", none, none, none, none⟩ :
        DexRouter.DexInstruction)
      = (some "amount_in required for swap",
        (⟨"1", 2, [("1", ⟨"HIVE", "HBD", 1000, 1000, 8, 0, 0, 0, []⟩)]⟩ :
          DexRouter.CState), []) :=
  (C10_min_amount_out_is_input
    (⟨"1", 2, [("1", ⟨"HIVE", "HBD", 1000, 1000, 8, 0, 0, 0, []⟩)]⟩ :
      DexRouter.CState) "1"
    (⟨"swap", "1", "HIVE", "HBD", "hive:user", none, none, none, none⟩ :
      DexRouter.DexInstruction) 0
    (⟨"1", 2, [("1", ⟨"HIVE", "HBD", 1000, 1000, 8, 0, 0, 0, []⟩)]⟩ :
      DexRouter.CState) []).1 rfl (by decide) (by decide)

/-- C5: when assetIn ≠ assetOut and neither asset is HBD, the routing
service attempts the two-hop route via HBD; if the first or second hop's
pool lookup fails, the result is a failure carrying the no-pool-found
message and an empty route, with no further hops attempted.  Likewise the
dex-router contract, when no direct pool exists, attempts the HBD two-hop
and rejects with "no pool found for first hop" / "no pool found for
second hop", leaving the state untouched and emitting no effects. -/
theorem C5_two_hop_missing_pool (env : RouterSvc.Env)
    (calcMin : ℤ → ℕ → Bool → ℤ) (params : RouterSvc.SwapParams)
    (e : String) (p1 : RouterSvc.PoolInfo)
    (st : DexRouter.CState) (inst : DexRouter.DexInstruction)
    (hne : params.assetIn ≠ params.assetOut)
    (hin : params.assetIn ≠ "HBD") (hout : params.assetOut ≠ "HBD") :
    (RouterSvc.findPool env params.assetIn "HBD" = .error e →
      RouterSvc.ExecuteSwap env calcMin params
        = RouterSvc.fail ("no pool found for " ++ params.assetIn
            ++ "/HBD: " ++ e)
      ∧ (RouterSvc.ExecuteSwap env calcMin params).route = [])
    ∧ (RouterSvc.findPool env params.assetIn "HBD" = .ok p1 →
      RouterSvc.findPool env "HBD" params.assetOut = .error e →
      RouterSvc.ExecuteSwap env calcMin params
        = RouterSvc.fail ("no pool found for HBD/" ++ params.assetOut
            ++ ": " ++ e)
      ∧ (RouterSvc.ExecuteSwap env calcMin params).route = [])
    ∧ (DexRouter.findPool st inst.assetIn inst.assetOut = "" →
      inst.assetIn ≠ "HBD" → inst.assetOut ≠ "HBD" →
      DexRouter.findPool st inst.assetIn "HBD" = "" →
      DexRouter.executeSwap st inst
        = (some "no pool found for first hop", st, []))
    ∧ (DexRouter.findPool st inst.assetIn inst.assetOut = "" →
      inst.assetIn ≠ "HBD" → inst.assetOut ≠ "HBD" →
      DexRouter.findPool st inst.assetIn "HBD" ≠ "" →
      DexRouter.findPool st "HBD" inst.assetOut = "" →
      DexRouter.executeSwap st inst
        = (some "no pool found for second hop", st, [])) := by
  refine ⟨?_, ?_, ?_, ?_⟩
  · intro hfp
    have heq : RouterSvc.ExecuteSwap env calcMin params
        = RouterSvc.fail ("no pool found for " ++ params.assetIn
            ++ "/HBD: " ++ e) := by
      unfold RouterSvc.ExecuteSwap
      rw [if_neg hne, if_neg (not_or.mpr ⟨hin, hout⟩), hfp]
    exact ⟨heq, by rw [heq]; rfl⟩
  · intro hp1 hfp2
    have heq : RouterSvc.ExecuteSwap env calcMin params
        = RouterSvc.fail ("no pool found for HBD/" ++ params.assetOut
            ++ ": " ++ e) := by
      unfold RouterSvc.ExecuteSwap
      rw [if_neg hne, if_neg (not_or.mpr ⟨hin, hout⟩), hp1, hfp2]
    exact ⟨heq, by rw [heq]; rfl⟩
  · intro hdir hinI houtI h1
    unfold DexRouter.executeSwap
    dsimp only
    rw [if_neg (not_not_intro hdir), if_pos ⟨hinI, houtI⟩]
    unfold DexRouter.executeTwoHopSwap
    dsimp only
    rw [if_pos h1]
  · intro hdir hinI houtI h1 h2
    unfold DexRouter.executeSwap
    dsimp only
    rw [if_neg (not_not_intro hdir), if_pos ⟨hinI, houtI⟩]
    unfold DexRouter.executeTwoHopSwap
    dsimp only
    rw [if_neg h1, if_pos h2]

/-- C5 witness: with no querier, a DOGE → LTC request fails on the first
hop with the fallback lookup's no-pool-found message and an empty
route. -/
theorem C5_two_hop_missing_pool_witness :
    RouterSvc.ExecuteSwap (⟨none⟩ : RouterSvc.Env) (fun _ _ _ => 0)
      (⟨"hive:alice", 100, "DOGE", "LTC", 0, 100, "", 0⟩ :
        RouterSvc.SwapParams)
      = RouterSvc.fail
          "no pool found for DOGE/HBD: no pool found for DOGE/HBD"
    ∧ (RouterSvc.ExecuteSwap (⟨none⟩ : RouterSvc.Env) (fun _ _ _ => 0)
        (⟨"hive:alice", 100, "DOGE", "LTC", 0, 100, "", 0⟩ :
          RouterSvc.SwapParams)).route = [] :=
  (C5_two_hop_missing_pool (⟨none⟩ : RouterSvc.Env) (fun _ _ _ => 0)
    (⟨"hive:alice", 100, "DOGE", "LTC", 0, 100, "", 0⟩ :
      RouterSvc.SwapParams)
    "no pool found for DOGE/HBD" (⟨"x", "DOGE", "HBD"⟩ : RouterSvc.PoolInfo)
    (DexRouter.Init "1")
    (⟨"swap", "1", "DOGE", "LTC", "hive:alice", none, none, none, none⟩ :
      DexRouter.DexInstruction)
    (by decide) (by decide) (by decide)).1 rfl

/-- C6 (amended): for a swap the service accepts into the pool-resolution
path (positive `amountIn` at most `2^62` — larger amounts are rejected
earlier with a different, "swap amount too large" error), with a resolved
pool, nonzero reserves and `reserveIn * 50` below `2^64`, any request for
more than 50% of the input reserve is rejected with the
pool-drain-protection error, whatever the slippage settings and
`minAmountOut` are. -/
theorem C6_drain_protection (env : RouterSvc.Env)
    (params : RouterSvc.SwapParams) (pool : RouterSvc.PoolInfo)
    (pws : RouterSvc.PoolInfoWithReserves) (rIn rOut : ℕ)
    (h0 : 0 < params.amountIn)
    (hMax : params.amountIn ≤ 4611686018427387904)
    (hfp : RouterSvc.findPool env params.assetIn params.assetOut = .ok pool)
    (hpw : RouterSvc.getPoolWithReserves env pool.contractId = .ok pws)
    (hrIn : rIn = if pws.asset0 = params.assetIn then pws.reserve0
      else pws.reserve1)
    (hrOut : rOut = if pws.asset0 = params.assetIn then pws.reserve1
      else pws.reserve0)
    (hnz : ¬(rIn = 0 ∨ rOut = 0))
    (hwrap : rIn * 50 < U64)
    (hdrain : rIn < 2 * params.amountIn.toNat) :
    RouterSvc.executeDirectSwap env params
      = RouterSvc.fail
          ("swap amount exceeds maximum allowed (50% of reserve): max "
            ++ toString (rIn * 50 / 100) ++ ", requested "
            ++ toString params.amountIn.toNat) := by
  have haIn : 1 ≤ params.amountIn.toNat := by omega
  unfold RouterSvc.executeDirectSwap
  rw [if_neg (by omega), if_neg (by omega), hfp]
  dsimp only
  rw [hpw]
  dsimp only
  rw [← hrIn, ← hrOut, if_neg hnz, wrap_eq_of_lt hwrap,
    if_pos (show rIn * 50 / 100 < params.amountIn.toNat by omega)]

/-- C6 witness: against the fallback HIVE/HBD pool with reserves
(10000000, 10000000), requesting 6000000 (more than half the input
reserve) is rejected with the drain-protection error. -/
theorem C6_drain_protection_witness :
    RouterSvc.executeDirectSwap (⟨none⟩ : RouterSvc.Env)
      (⟨"hive:alice", 6000000, "HIVE", "HBD", 0, 100, "", 0⟩ :
        RouterSvc.SwapParams)
      = RouterSvc.fail
          ("swap amount exceeds maximum allowed (50% of reserve): max "
            ++ toString (10000000 * 50 / 100) ++ ", requested "
            ++ toString (6000000 : ℤ).toNat) :=
  C6_drain_protection (⟨none⟩ : RouterSvc.Env)
    (⟨"hive:alice", 6000000, "HIVE", "HBD", 0, 100, "", 0⟩ :
      RouterSvc.SwapParams)
    (⟨"hive-hbd-pool", "HBD", "HIVE"⟩ : RouterSvc.PoolInfo)
    (⟨"hive-hbd-pool", "HBD", "HIVE", 10000000, 10000000, 8⟩ :
      RouterSvc.PoolInfoWithReserves)
    10000000 10000000
    (by decide) (by decide) rfl rfl (by decide) (by decide)
    (by decide) (by decide) (by decide)

/-- `executeDirectSwap` factored through the staged tail. -/
theorem RouterSvc.executeDirectSwap_eq_tail (env : RouterSvc.Env)
    (params : RouterSvc.SwapParams) :
    RouterSvc.executeDirectSwap env params
      = if params.amountIn ≤ 0 then
          RouterSvc.fail "amount in must be greater than zero"
        else if 4611686018427387904 < params.amountIn then
          RouterSvc.fail "swap amount too large"
        else match RouterSvc.findPool env params.assetIn params.assetOut with
          | .error e => RouterSvc.fail ("no pool found for "
              ++ params.assetIn ++ "/" ++ params.assetOut ++ ": " ++ e)
          | .ok pool =>
            match RouterSvc.getPoolWithReserves env pool.contractId with
            | .error e => RouterSvc.fail ("failed to get pool reserves: " ++ e)
            | .ok pws => RouterSvc.svcTail params pws := rfl

set_option maxHeartbeats 2000000 in
/-- C7 (amended): the pool contract clamps a zero fee-adjusted effective
input to 1 (never rejects it), and any successful contract swap pays out
strictly less than the output-side reserve in both directions.  The
routing service keeps the strict output bound as well, but it does not
clamp: a fee-adjusted input of zero is rejected with "swap amount too
small after fees" (see the counterexample). -/
theorem C7_effective_input_and_strict_output
    (aIn feeBps minOut ref : ℕ) (b : Bool) (sender benS : String)
    (s s' : V2.PoolState) (effs : List Eff)
    (env : RouterSvc.Env) (params : RouterSvc.SwapParams)
    (pool : RouterSvc.PoolInfo) (pws : RouterSvc.PoolInfoWithReserves)
    (rIn rOut : ℕ) (r : RouterSvc.SwapResult) :
    (0 < aIn → 1 ≤ V2.effIn aIn feeBps b)
    ∧ (V2.Swap sender "0to1" aIn minOut benS ref s = .ok (s', effs) →
      V2.dyUserV aIn s < s.reserve1)
    ∧ (V2.Swap sender "1to0" aIn minOut benS ref s = .ok (s', effs) →
      V2.dxUserTotalV aIn s < s.reserve0)
    ∧ (RouterSvc.executeDirectSwap env params = r → r.success = true →
      RouterSvc.findPool env params.assetIn params.assetOut = .ok pool →
      RouterSvc.getPoolWithReserves env pool.contractId = .ok pws →
      rIn = (if pws.asset0 = params.assetIn then pws.reserve0
        else pws.reserve1) →
      rOut = (if pws.asset0 = params.assetIn then pws.reserve1
        else pws.reserve0) →
      r.amountOut < (rOut : ℤ)) := by
  refine ⟨fun h => V2.effIn_pos aIn feeBps b h, ?_, ?_, ?_⟩
  · intro hok
    obtain ⟨-, -, -, -, -, -, hdy, -, -, -, -, -, -, -⟩ :=
      V2.swap0to1_inv sender aIn minOut benS ref s s' effs hok
    have hle := V2.applySlip_le s.slipBaselineBps s.slipShareBps
      s.reserve0 s.reserve1 (V2.dxEffV aIn s) (V2.dyV aIn s)
    unfold V2.dyUserV
    omega
  · intro hok
    obtain ⟨-, -, -, -, -, -, hdx, -, -, -, -, -, -, -⟩ :=
      V2.swap1to0_inv sender aIn minOut benS ref s s' effs hok
    have hle := V2.applySlip_le s.slipBaselineBps s.slipShareBps
      s.reserve1 s.reserve0 aIn (V2.dxOutV aIn s)
    unfold V2.dxUserTotalV
    omega
  · intro hsucc hr hfp hpw hrIn hrOut
    rw [RouterSvc.executeDirectSwap_eq_tail] at hsucc
    split at hsucc
    · rw [← hsucc] at hr; exact Bool.noConfusion hr
    split at hsucc
    · rw [← hsucc] at hr; exact Bool.noConfusion hr
    rw [hfp] at hsucc
    dsimp only at hsucc
    rw [hpw] at hsucc
    dsimp only at hsucc
    have hout : rOut = RouterSvc.svcReserveOut params pws := hrOut
    unfold RouterSvc.svcTail at hsucc
    split at hsucc
    · rw [← hsucc] at hr; exact Bool.noConfusion hr
    split at hsucc
    · rw [← hsucc] at hr; exact Bool.noConfusion hr
    split at hsucc
    · rw [← hsucc] at hr; exact Bool.noConfusion hr
    split at hsucc
    · rw [← hsucc] at hr; exact Bool.noConfusion hr
    split at hsucc
    · rw [← hsucc] at hr; exact Bool.noConfusion hr
    split at hsucc
    · rw [← hsucc] at hr; exact Bool.noConfusion hr
    split at hsucc
    · rw [← hsucc] at hr; exact Bool.noConfusion hr
    split at hsucc
    · rw [← hsucc] at hr; exact Bool.noConfusion hr
    rw [← hsucc]
    dsimp only
    omega

/-- C7 witness: the contract's effective input at `amountIn = 1` with the
default 8 bps fee rounds to zero and is clamped to 1. -/
theorem C7_effective_input_and_strict_output_witness :
    1 ≤ V2.effIn 1 8 true :=
  (C7_effective_input_and_strict_output 1 8 0 0 true "A" "B"
    (V2.Init "hbd" "hive" 8) (V2.Init "hbd" "hive" 8) []
    (⟨none⟩ : RouterSvc.Env)
    (⟨"hive:alice", 1, "HIVE", "HBD", 0, 100, "", 0⟩ : RouterSvc.SwapParams)
    (⟨"hive-hbd-pool", "HBD", "HIVE"⟩ : RouterSvc.PoolInfo)
    (⟨"hive-hbd-pool", "HBD", "HIVE", 10000000, 10000000, 8⟩ :
      RouterSvc.PoolInfoWithReserves)
    10000000 10000000 (RouterSvc.fail "x")).1 (by decide)

set_option maxHeartbeats 2000000 in
/-- C3 (amended): the routing service computes the constant-product step
with arbitrary-precision arithmetic: on success the returned output equals
the exact `reserveOut - floor(reserveIn * reserveOut / (reserveIn +
amountInAfterFee))` with no modular reduction, narrowed only after the
bounds check, and when that exact value falls outside `(0, 2^64)` the
service rejects with the explicit out-of-bounds error instead of
truncating.  (The wasm contracts, by contrast, compute `k` as a raw
64-bit product that wraps silently — see the counterexample.) -/
theorem C3_service_exact_or_out_of_bounds (env : RouterSvc.Env)
    (params : RouterSvc.SwapParams) (pool : RouterSvc.PoolInfo)
    (pws : RouterSvc.PoolInfoWithReserves) (r : RouterSvc.SwapResult) :
    (RouterSvc.executeDirectSwap env params = r → r.success = true →
      RouterSvc.findPool env params.assetIn params.assetOut = .ok pool →
      RouterSvc.getPoolWithReserves env pool.contractId = .ok pws →
      r.amountOut = RouterSvc.svcOutInt params pws
      ∧ 0 < RouterSvc.svcOutInt params pws
      ∧ RouterSvc.svcOutInt params pws < 18446744073709551616)
    ∧ (0 < params.amountIn →
      params.amountIn ≤ 4611686018427387904 →
      RouterSvc.findPool env params.assetIn params.assetOut = .ok pool →
      RouterSvc.getPoolWithReserves env pool.contractId = .ok pws →
      ¬(RouterSvc.svcReserveIn params pws = 0
        ∨ RouterSvc.svcReserveOut params pws = 0) →
      ¬(wrap (RouterSvc.svcReserveIn params pws * 50) / 100
        < params.amountIn.toNat) →
      ¬(10000 ≤ RouterSvc.svcFeeBps pws) →
      RouterSvc.svcAfterFee params pws ≠ 0 →
      (RouterSvc.svcOutInt params pws ≤ 0
        ∨ (18446744073709551616 : ℤ) ≤ RouterSvc.svcOutInt params pws) →
      RouterSvc.executeDirectSwap env params
        = RouterSvc.fail
            "invalid swap output calculation: result out of bounds") := by
  constructor
  · intro hsucc hr hfp hpw
    rw [RouterSvc.executeDirectSwap_eq_tail] at hsucc
    split at hsucc
    · rw [← hsucc] at hr; exact Bool.noConfusion hr
    split at hsucc
    · rw [← hsucc] at hr; exact Bool.noConfusion hr
    rw [hfp] at hsucc
    dsimp only at hsucc
    rw [hpw] at hsucc
    dsimp only at hsucc
    unfold RouterSvc.svcTail at hsucc
    split at hsucc
    · rw [← hsucc] at hr; exact Bool.noConfusion hr
    split at hsucc
    · rw [← hsucc] at hr; exact Bool.noConfusion hr
    split at hsucc
    · rw [← hsucc] at hr; exact Bool.noConfusion hr
    split at hsucc
    · rw [← hsucc] at hr; exact Bool.noConfusion hr
    split at hsucc
    · rw [← hsucc] at hr; exact Bool.noConfusion hr
    split at hsucc
    · rw [← hsucc] at hr; exact Bool.noConfusion hr
    split at hsucc
    · rw [← hsucc] at hr; exact Bool.noConfusion hr
    split at hsucc
    · rw [← hsucc] at hr; exact Bool.noConfusion hr
    rw [← hsucc]
    dsimp only
    refine ⟨?_, by omega, by omega⟩
    omega
  · intro h0 hMax hfp hpw hnz hdrain hfee haf hob
    rw [RouterSvc.executeDirectSwap_eq_tail]
    rw [if_neg (by omega), if_neg (by omega), hfp]
    dsimp only
    rw [hpw]
    dsimp only
    unfold RouterSvc.svcTail
    rw [if_neg hnz, if_neg hdrain, if_neg hfee, if_neg haf, if_pos hob]

/-- C3 witness: a 1000000 HIVE → HBD swap against the fallback pool
succeeds and its output equals the exact wide-arithmetic value, which
lies strictly inside `(0, 2^64)`. -/
theorem C3_service_exact_or_out_of_bounds_witness :
    (RouterSvc.executeDirectSwap (⟨none⟩ : RouterSvc.Env)
      (⟨"hive:alice", 1000000, "HIVE", "HBD", 0, 100, "", 0⟩ :
        RouterSvc.SwapParams)).amountOut
      = RouterSvc.svcOutInt
          (⟨"hive:alice", 1000000, "HIVE", "HBD", 0, 100, "", 0⟩ :
            RouterSvc.SwapParams)
          (⟨"hive-hbd-pool", "HBD", "HIVE", 10000000, 10000000, 8⟩ :
            RouterSvc.PoolInfoWithReserves)
    ∧ 0 < RouterSvc.svcOutInt
        (⟨"hive:alice", 1000000, "HIVE", "HBD", 0, 100, "", 0⟩ :
          RouterSvc.SwapParams)
        (⟨"hive-hbd-pool", "HBD", "HIVE", 10000000, 10000000, 8⟩ :
          RouterSvc.PoolInfoWithReserves)
    ∧ RouterSvc.svcOutInt
        (⟨"hive:alice", 1000000, "HIVE", "HBD", 0, 100, "", 0⟩ :
          RouterSvc.SwapParams)
        (⟨"hive-hbd-pool", "HBD", "HIVE", 10000000, 10000000, 8⟩ :
          RouterSvc.PoolInfoWithReserves) < 18446744073709551616 :=
  (C3_service_exact_or_out_of_bounds (⟨none⟩ : RouterSvc.Env)
    (⟨"hive:alice", 1000000, "HIVE", "HBD", 0, 100, "", 0⟩ :
      RouterSvc.SwapParams)
    (⟨"hive-hbd-pool", "HBD", "HIVE"⟩ : RouterSvc.PoolInfo)
    (⟨"hive-hbd-pool", "HBD", "HIVE", 10000000, 10000000, 8⟩ :
      RouterSvc.PoolInfoWithReserves)
    (RouterSvc.executeDirectSwap (⟨none⟩ : RouterSvc.Env)
      (⟨"hive:alice", 1000000, "HIVE", "HBD", 0, 100, "", 0⟩ :
        RouterSvc.SwapParams))).1 rfl rfl rfl rfl
